import Mathlib

/-!
Verification of the ErrandConnect ("ErrandGo") Flask application, `src/app.py`
and `src/models.py`, against its natural-language specification.

The application state (the relational store) is embedded shallowly: each
SQLAlchemy model becomes a structure, the database becomes lists of rows in
insertion order, `filter_by(...).first()` becomes `List.find?`, autoincrement
primary keys become explicit counters.  Float columns are embedded as `ℚ`
(every price arithmetic the claims mention is exact in both), `datetime`
columns as a calendar `Date` (the code only ever observes `.date()`, `.year`
and `.month` of these values, never the time of day).  The logged-in session
is the `Option Nat` user id established by `/signin`; `datetime.utcnow()` is
the explicit `Date` argument of each request function.
-/

namespace ErrandGo

/-- Calendar date, embedding the date part of Python `datetime` values. -/
structure Date where
  year : Nat
  month : Nat
  day : Nat
deriving DecidableEq, Repr

/-- Gregorian leap-year rule, as in Python's `datetime` module. -/
def isLeapYear (y : Nat) : Bool :=
  y % 4 == 0 && (y % 100 != 0 || y % 400 == 0)

/-- Length of month `m` of year `y` in the Gregorian calendar. -/
def daysInMonth (y m : Nat) : Nat :=
  if m == 2 then (if isLeapYear y then 29 else 28)
  else if m == 4 || m == 6 || m == 9 || m == 11 then 30
  else 31

/-- Previous calendar day, embedding `dt - timedelta(days=1)`. -/
def Date.subDay (d : Date) : Date :=
  if d.day > 1 then ⟨d.year, d.month, d.day - 1⟩
  else if d.month > 1 then ⟨d.year, d.month - 1, daysInMonth d.year (d.month - 1)⟩
  else ⟨d.year - 1, 12, 31⟩

/-- Embedding of `dt - timedelta(days=n)`. -/
def Date.subDays (d : Date) : Nat → Date
  | 0 => d
  | n + 1 => (Date.subDays d n).subDay

/-- Characters removed by Python `str.strip()` with no argument. -/
def isPySpace (c : Char) : Bool :=
  c == ' ' || c == '\t' || c == '\n' || c == '\r' || c == '\x0b' || c == '\x0c'

/-- Embedding of Python `str.strip()`. -/
def pyStrip (s : String) : String :=
  ⟨((s.data.dropWhile isPySpace).reverse.dropWhile isPySpace).reverse⟩

/-- Code-point ranges of the Unicode decimal-digit characters (general
category Nd, Unicode 15.0 — the table CPython 3.12 uses): what Python's
`\d`, `\D` and decimal digits in general match on `str`. -/
def unicodeDigitRanges : List (Nat × Nat) :=
  [(0x30, 0x39), (0x660, 0x669), (0x6F0, 0x6F9), (0x7C0, 0x7C9),
   (0x966, 0x96F), (0x9E6, 0x9EF), (0xA66, 0xA6F), (0xAE6, 0xAEF),
   (0xB66, 0xB6F), (0xBE6, 0xBEF), (0xC66, 0xC6F), (0xCE6, 0xCEF),
   (0xD66, 0xD6F), (0xDE6, 0xDEF), (0xE50, 0xE59), (0xED0, 0xED9),
   (0xF20, 0xF29), (0x1040, 0x1049), (0x1090, 0x1099), (0x17E0, 0x17E9),
   (0x1810, 0x1819), (0x1946, 0x194F), (0x19D0, 0x19D9), (0x1A80, 0x1A89),
   (0x1A90, 0x1A99), (0x1B50, 0x1B59), (0x1BB0, 0x1BB9), (0x1C40, 0x1C49),
   (0x1C50, 0x1C59), (0xA620, 0xA629), (0xA8D0, 0xA8D9), (0xA900, 0xA909),
   (0xA9D0, 0xA9D9), (0xA9F0, 0xA9F9), (0xAA50, 0xAA59), (0xABF0, 0xABF9),
   (0xFF10, 0xFF19), (0x104A0, 0x104A9), (0x10D30, 0x10D39),
   (0x11066, 0x1106F), (0x110F0, 0x110F9), (0x11136, 0x1113F),
   (0x111D0, 0x111D9), (0x112F0, 0x112F9), (0x11450, 0x11459),
   (0x114D0, 0x114D9), (0x11650, 0x11659), (0x116C0, 0x116C9),
   (0x11730, 0x11739), (0x118E0, 0x118E9), (0x11950, 0x11959),
   (0x11C50, 0x11C59), (0x11D50, 0x11D59), (0x11DA0, 0x11DA9),
   (0x11F50, 0x11F59), (0x16A60, 0x16A69), (0x16AC0, 0x16AC9),
   (0x16B50, 0x16B59), (0x1D7CE, 0x1D7FF), (0x1E140, 0x1E149),
   (0x1E2F0, 0x1E2F9), (0x1E4F0, 0x1E4F9), (0x1E950, 0x1E959),
   (0x1FBF0, 0x1FBF9)]

/-- Unicode decimal-digit test (category Nd), the character class Python's
`\d` matches on `str`. -/
def isUnicodeDigit (c : Char) : Bool :=
  unicodeDigitRanges.any (fun r => decide (r.1 ≤ c.toNat) && decide (c.toNat ≤ r.2))

/-- Digits of a string, embedding `re.sub(r'\D', '', phone)`: Python's
`\D` removes exactly the characters outside category Nd. -/
def digitsOnly (s : String) : List Char :=
  s.data.filter isUnicodeDigit

/-- Embedding of `str.isdigit` as used on `digits_only` in
`validate_phone`: non-empty and every character a digit.  `str.isdigit`
also accepts a handful of digit-typed non-decimal characters (superscript
digits and the like), but those are removed by `re.sub(r'\D', ...)` and so
can never occur in the string this is applied to; on all-Nd strings the
two predicates agree. -/
def pyStrIsDigit (cs : List Char) : Bool :=
  !cs.isEmpty && cs.all isUnicodeDigit

/-- Numeric value of a list of decimal digits. -/
def digitsVal (cs : List Char) : Nat :=
  cs.foldl (fun a c => a * 10 + (c.toNat - 48)) 0

/-- Parse a non-empty all-digit character list. -/
def parseNatDigits (cs : List Char) : Option Nat :=
  if cs.isEmpty then none
  else if cs.all Char.isDigit then some (digitsVal cs) else none

/-- Embedding of Python `float(s)` on plain decimal literals: optional sign,
integer part, optional fractional part (exponents and the special values,
which no form in this application produces, are treated as parse failures,
i.e. as a `ValueError`).  `none` models the raised `ValueError`. -/
def pyFloat? (s : String) : Option ℚ :=
  let t := (pyStrip s).data
  let core : List Char → Option ℚ := fun u =>
    match u.span (fun c => c != '.') with
    | (ip, []) => (parseNatDigits ip).map (fun n => (n : ℚ))
    | (ip, _ :: frac) =>
      if ip.isEmpty && frac.isEmpty then none
      else if ip.all Char.isDigit && frac.all Char.isDigit then
        some ((digitsVal ip : ℚ) + (digitsVal frac : ℚ) / (10 : ℚ) ^ frac.length)
      else none
  match t with
  | '-' :: r => (core r).map (fun q => -q)
  | '+' :: r => core r
  | r => core r

/-- Embedding of the f-string rendering of an optional form value
(`None` prints as `"None"`). -/
def pyShow (o : Option String) : String :=
  match o with
  | some t => t
  | none => "None"

/-- Embedding of `calculate_gas_price` (src/app.py lines 297-305).  The form
values arrive as optional strings; a missing or empty `quantity` is falsy and
contributes `0.0`; a `quantity` that `float()` cannot parse raises, embedded
as `none`. -/
def calculate_gas_price (fuel_type : Option String) (quantity : Option String) : Option ℚ :=
  let fuel_price : ℚ :=
    if fuel_type == some "petrol" then 1.0
    else if fuel_type == some "diesel" then 0.8
    else if fuel_type == some "premium" then 1.2
    else if fuel_type == some "cng" then 0.6
    else if fuel_type == some "lpg" then 0.7
    else if fuel_type == some "other" then 1.0
    else 1.0
  let base_price : ℚ := 5.0
  match quantity with
  | none => some base_price
  | some q =>
    if q == "" then some base_price
    else (pyFloat? q).map (fun v => base_price + fuel_price * v)

/-- Embedding of `calculate_package_price` (src/app.py lines 246-256). -/
def calculate_package_price (weight : Option String) (timeframe : Option String)
    (fragile : Option String) : Option ℚ :=
  let base0 : Option ℚ :=
    match weight with
    | none => some 5.0
    | some w =>
      if w == "" then some 5.0
      else (pyFloat? w).map (fun v => 5.0 + v * 0.5)
  base0.map (fun b =>
    let b1 : ℚ :=
      if timeframe == some "express" then b * 1.5
      else if timeframe == some "next_day" then b * 1.2
      else b
    if fragile == some "yes" then b1 + 3.0
    else if fragile == some "very_fragile" then b1 + 5.0
    else b1)

/-- Characters of the local part of the email pattern, `[a-zA-Z0-9._%+-]`. -/
def emailLocalChar (c : Char) : Bool :=
  c.isAlphanum || c == '.' || c == '_' || c == '%' || c == '+' || c == '-'

/-- Characters of the domain body of the email pattern, `[a-zA-Z0-9.-]`. -/
def emailDomainChar (c : Char) : Bool :=
  c.isAlphanum || c == '.' || c == '-'

/-- Matchability of the domain part `[a-zA-Z0-9.-]+\.[a-zA-Z]\x7b2,\x7d`
against `rest`: some dot splits it into a non-empty domain body and a
trailing alphabetic run of length at least two.  Since a regex matches a
string exactly when some decomposition matches, this existential check is
the semantics of the (backtracking) pattern. -/
def emailDomainMatches (rest : List Char) : Bool :=
  (List.range rest.length).any (fun i =>
    rest.get? i == some '.' && decide (1 ≤ i) && (rest.take i).all emailDomainChar
      && decide (2 ≤ (rest.drop (i + 1)).length) && (rest.drop (i + 1)).all Char.isAlpha)

/-- Matchability of the full anchored email pattern against `cs`. -/
def emailCore (cs : List Char) : Bool :=
  match cs.span (fun c => c != '@') with
  | (_, []) => false
  | (lpart, _ :: rest) =>
    !lpart.isEmpty && lpart.all emailLocalChar && emailDomainMatches rest

/-- Embedding of `validate_email` (src/app.py lines 43-45): Python
`re.match` with a pattern ending in `$`, which also matches just before one
trailing newline. -/
def validate_email (email : String) : Bool :=
  let cs := email.data
  emailCore cs ||
    (match cs.getLast? with
     | some c => c == '\n' && emailCore cs.dropLast
     | none => false)

/-- Embedding of `validate_phone` (src/app.py lines 48-73). -/
def validate_phone (phone : String) : Bool :=
  let digits_only := digitsOnly phone
  if digits_only.length != 9 then false
  else
    let p2 := String.mk (digits_only.take 2)
    if !(["71", "73", "77", "78"].contains p2) then false
    else if !(pyStrIsDigit digits_only) then false
    else true

/-- Row of the `users` table (src/models.py, class User). -/
structure User where
  id : Nat
  fullname : String
  username : String
  email : String
  phone : String
  password_hash : String
  user_type : String
deriving DecidableEq, Repr

/-- Row of the `runner_profiles` table; only the columns the verified code
reads are carried (a NULL `city` is embedded as the empty string, which the
code treats identically: both are falsy). -/
structure RunnerProfile where
  id : Nat
  user_id : Nat
  city : String
deriving DecidableEq, Repr

/-- Row of the `errands` table (columns the verified code touches). -/
structure Errand where
  id : Nat
  client_id : Nat
  type : String
  pickup_location : String
  delivery_location : String
  details : String
  price_estimate : ℚ
  status : String
deriving DecidableEq, Repr

/-- Row of the `negotiations` table.  The `offer_price` column is nullable
(src/models.py line 104): `/negotiate` stores NULL when the form carries no
parseable price, embedded as `none`. -/
structure Negotiation where
  id : Nat
  errand_id : Nat
  runner_id : Nat
  offer_price : Option ℚ
  status : String
deriving DecidableEq, Repr

/-- Row of the `active_errands` table. -/
structure ActiveErrand where
  id : Nat
  errand_id : Nat
  runner_id : Nat
  start_time : Date
  end_time : Option Date
  status : String
deriving DecidableEq, Repr

/-- Row of the `ratings` table. -/
structure Rating where
  id : Nat
  errand_id : Nat
  from_user_id : Nat
  to_user_id : Nat
  rating : Int
  comment : String
  created_at : Date
deriving DecidableEq, Repr

/-- Row of the `notifications` table. -/
structure Notification where
  id : Nat
  user_id : Nat
  message : String
  is_read : Bool
deriving DecidableEq, Repr

/-- The relational store: one list per table, rows in insertion order
(`filter_by(...).first()` carries no `order_by`, and on the SQLite store the
rows come back in rowid = insertion order), plus the autoincrement counters. -/
structure AppState where
  users : List User
  runner_profiles : List RunnerProfile
  errands : List Errand
  negotiations : List Negotiation
  active_errands : List ActiveErrand
  ratings : List Rating
  notifications : List Notification
  next_user_id : Nat
  next_errand_id : Nat
  next_negotiation_id : Nat
  next_active_id : Nat
  next_rating_id : Nat
  next_notification_id : Nat
deriving DecidableEq, Repr

/-- The freshly created database. -/
def AppState.emptyState : AppState :=
  ⟨[], [], [], [], [], [], [], 1, 1, 1, 1, 1, 1⟩

/-- Embedding of `User.query.get(uid)`. -/
def findUser (s : AppState) (uid : Nat) : Option User :=
  s.users.find? (fun u => u.id == uid)

/-- Embedding of `Errand.query.get(eid)`. -/
def findErrand (s : AppState) (eid : Nat) : Option Errand :=
  s.errands.find? (fun e => e.id == eid)

/-- Embedding of `Negotiation.query.get(nid)`. -/
def findNegotiation (s : AppState) (nid : Nat) : Option Negotiation :=
  s.negotiations.find? (fun n => n.id == nid)

/-- Embedding of `ActiveErrand.query.get(aid)`. -/
def findActive (s : AppState) (aid : Nat) : Option ActiveErrand :=
  s.active_errands.find? (fun a => a.id == aid)

/-- Embedding of `ActiveErrand.query.filter_by(errand_id=eid).first()`. -/
def firstActiveFor (s : AppState) (eid : Nat) : Option ActiveErrand :=
  s.active_errands.find? (fun a => a.errand_id == eid)

/-- Embedding of `RunnerProfile.query.filter_by(user_id=uid).first()`. -/
def findProfileByUser (s : AppState) (uid : Nat) : Option RunnerProfile :=
  s.runner_profiles.find? (fun p => p.user_id == uid)

/-- Embedding of
`Negotiation.query.filter_by(errand_id=eid, runner_id=rid, status="accepted").first()`. -/
def findAcceptedNeg (s : AppState) (eid rid : Nat) : Option Negotiation :=
  s.negotiations.find? (fun n =>
    n.errand_id == eid && n.runner_id == rid && n.status == "accepted")

/-- Contiguous-sublist test on character lists. -/
def containsSub : List Char → List Char → Bool
  | hay, needle =>
    if needle.isPrefixOf hay then true
    else
      match hay with
      | [] => false
      | _ :: t => containsSub t needle

/-- Case-insensitive substring test, embedding SQL `ILIKE '%pat%'` (for the
plain city names this application stores, i.e. without SQL wildcard
metacharacters in `pat`). -/
def containsCI (hay pat : String) : Bool :=
  containsSub (hay.data.map Char.toLower) (pat.data.map Char.toLower)

/-- HTTP outcome of a request: a rendered page, a redirect carrying its
flash messages, a JSON reply, a bare `abort(code)`, or the generic 500 page
produced by an unhandled exception (which rolls back the transaction). -/
inductive Resp
  | page (template : String) (flash : List String)
  | redirect (endpoint : String) (flash : List String)
  | json (code : Nat) (msg : String)
  | abort (code : Nat)
  | serverError
deriving DecidableEq, Repr

/-- Embedding of `create_notification` (src/app.py lines 76-79). -/
def create_notification (s : AppState) (uid : Nat) (msg : String) : AppState :=
  { s with
    notifications := s.notifications ++ [⟨s.next_notification_id, uid, msg, false⟩],
    next_notification_id := s.next_notification_id + 1 }

/-- Embedding of `get_available_errands_count` (src/app.py lines 89-101). -/
def get_available_errands_count (s : AppState) (user_id : Nat) : Nat :=
  let runner_profile := findProfileByUser s user_id
  let runner_city :=
    match runner_profile with
    | some p => p.city
    | none => ""
  if runner_city != "" then
    (s.errands.filter (fun e =>
      e.status == "pending" && containsCI e.pickup_location runner_city)).length
  else
    (s.errands.filter (fun e => e.status == "pending")).length

/-- Price-estimate of the errand an active errand points to, embedding the
relationship access `active_errand.errand.price_estimate`.  The foreign key
guarantees the errand row exists in every state the database accepts; the
`0` default is never reached there. -/
def errandPriceEstimateD (s : AppState) (eid : Nat) : ℚ :=
  match findErrand s eid with
  | some e => e.price_estimate
  | none => 0

/-- Loop body of the per-day accumulation in `get_weekly_earnings`
(src/app.py lines 126-140): a completed active errand contributes on the
day its `end_time` falls on — the accepted negotiation price if one
exists, the original estimate otherwise.  When the accepted negotiation's
`offer_price` is NULL, `day_earnings += negotiation.offer_price` raises a
TypeError, embedded as the absorbing `none` accumulator. -/
def dayLoopBody (s : AppState) (runner_id : Nat) (day : Date) (acc : Option ℚ)
    (a : ActiveErrand) : Option ℚ :=
  match acc with
  | none => none
  | some v =>
    match a.end_time with
    | some d =>
      if d == day then
        match findAcceptedNeg s a.errand_id runner_id with
        | some n =>
          match n.offer_price with
          | some p => some (v + p)
          | none => none
        | none => some (v + errandPriceEstimateD s a.errand_id)
      else some v
    | none => some v

/-- Embedding of `get_weekly_earnings` (src/app.py lines 117-148), with
`today = datetime.utcnow().date()` passed explicitly.  Each entry carries
the day (the code formats it with `strftime('%a')`, pure presentation) and
the earnings total; `none` is the TypeError raised on a NULL accepted
price, which aborts the whole computation. -/
def get_weekly_earnings (s : AppState) (runner_id : Nat) (today : Date) :
    Option (List (Date × ℚ)) :=
  (((List.range 7).mapM (fun i =>
    let day := today.subDays i
    let completed_errands := s.active_errands.filter (fun a =>
      a.runner_id == runner_id && a.status == "completed")
    (completed_errands.foldl (dayLoopBody s runner_id day) (some 0)).map
      (fun t => (day, t)))).map List.reverse)

/-- Loop body of the per-month accumulation in `get_monthly_earnings`
(src/app.py lines 161-175), with the same NULL-price TypeError as the
weekly body. -/
def monthLoopBody (s : AppState) (runner_id : Nat) (target : Date)
    (acc : Option ℚ) (a : ActiveErrand) : Option ℚ :=
  match acc with
  | none => none
  | some v =>
    match a.end_time with
    | some d =>
      if d.year == target.year && d.month == target.month then
        match findAcceptedNeg s a.errand_id runner_id with
        | some n =>
          match n.offer_price with
          | some p => some (v + p)
          | none => none
        | none => some (v + errandPriceEstimateD s a.errand_id)
      else some v
    | none => some v

/-- Embedding of `get_monthly_earnings` (src/app.py lines 151-183).  The
loop runs `i = 5, 4, ..., 0`; `month_start` is midnight on the first of
the current month and `target_month = month_start - timedelta(days=30*i)`.
Each entry carries the target month (formatted with `strftime('%b')` in
the code) and the earnings total; `none` is the TypeError on a NULL
accepted price. -/
def get_monthly_earnings (s : AppState) (runner_id : Nat) (today : Date) :
    Option (List ((Nat × Nat) × ℚ)) :=
  (List.range 6).mapM (fun j =>
    let i := 5 - j
    let month_start : Date := ⟨today.year, today.month, 1⟩
    let target := month_start.subDays (30 * i)
    let completed_errands := s.active_errands.filter (fun a =>
      a.runner_id == runner_id && a.status == "completed")
    (completed_errands.foldl (monthLoopBody s runner_id target) (some 0)).map
      (fun t => ((target.year, target.month), t)))

/-- Abstract embedding of `werkzeug.generate_password_hash` (salted hashing
is irrelevant to every claim; only that a string is stored). -/
def pwHash (password : String) : String :=
  "pbkdf2-" ++ password

/-- Split a character list at every occurrence of `sep` (the semantics of
`str.split(sep)` for a one-character separator). -/
def splitOnChar (sep : Char) : List Char → List (List Char)
  | [] => [[]]
  | c :: t =>
    match splitOnChar sep t with
    | [] => [[]]
    | h :: r => if c == sep then [] :: h :: r else (c :: h) :: r

/-- Embedding of `datetime.strptime(s, "%Y-%m-%d")`: three dash-separated
digit fields of the widths the directives accept, with the calendar range
checks `strptime` performs; `none` is the raised `ValueError`. -/
def parseDate? (s : String) : Option Date :=
  match splitOnChar '-' s.data with
  | [ys, ms, ds] =>
    match parseNatDigits ys, parseNatDigits ms, parseNatDigits ds with
    | some y, some m, some d =>
      if ys.length ≤ 4 && ms.length ≤ 2 && ds.length ≤ 2
          && 1 ≤ y && 1 ≤ m && m ≤ 12 && 1 ≤ d && d ≤ daysInMonth y m then
        some ⟨y, m, d⟩
      else none
    | _, _, _ => none
  | _ => none

/-- Age computation of the signup handler:
`now.year - dob.year - ((now.month, now.day) < (dob.month, dob.day))`. -/
def ageAt (now dob : Date) : Int :=
  (now.year : Int) - (dob.year : Int) -
    (if now.month < dob.month || (now.month == dob.month && now.day < dob.day)
     then 1 else 0)

/-- Form fields of the signup request after `request.form.get` (so the
`user_type` default `"client"`, the `country_code` default `"+263"` and the
presence flag of `terms_agreed` are already applied). -/
structure SignupForm where
  first_name : String
  last_name : String
  email : String
  phone_number : String
  date_of_birth : String
  username : String
  password : String
  confirm_password : String
  user_type : String
  terms_agreed : Bool
  country_code : String
deriving DecidableEq, Repr

/-- Validation cascade of the POST branch of `signup` (src/app.py lines
369-412): the first failing check's flash message, or `none` when every
check passes and the user is created. -/
def signupValidationError (s : AppState) (now : Date) (form : SignupForm) : Option String :=
  let first_name := pyStrip form.first_name
  let last_name := pyStrip form.last_name
  let email := pyStrip form.email
  let phone_number := pyStrip form.phone_number
  let date_of_birth := pyStrip form.date_of_birth
  let username := pyStrip form.username
  if !(first_name != "" && last_name != "" && email != "" && phone_number != ""
      && date_of_birth != "" && username != "" && form.password != ""
      && form.confirm_password != "" && form.user_type != "") then
    some "Please fill all required fields"
  else if form.user_type == "client" && !form.terms_agreed then
    some "You must agree to the Terms of Service and Privacy Policy"
  else if !validate_email email then
    some "Please enter a valid email address"
  else if !validate_phone phone_number then
    some "Please enter a valid Zimbabwe mobile number. Must be 9 digits starting with 71, 73, 77, or 78 (e.g., 771234567)"
  else if form.password.length < 6 then
    some "Password must be at least 6 characters"
  else if form.password != form.confirm_password then
    some "Passwords do not match"
  else
    match parseDate? date_of_birth with
    | none => some "Please enter a valid date of birth"
    | some dob =>
      if ageAt now dob < 13 then
        some "You must be at least 13 years old to register"
      else if s.users.any (fun u => u.username == username || u.email == email) then
        some "Username or email already exists"
      else
        none

/-- Embedding of the POST branch of `signup` (src/app.py lines 355-448):
each failed check flashes its message and redirects back to the form;
otherwise the user row is created.  The session bookkeeping after creation
is not part of the store. -/
def signup (s : AppState) (now : Date) (form : SignupForm) : AppState × Resp :=
  match signupValidationError s now form with
  | some msg => (s, .redirect "signup" [msg])
  | none =>
    let user : User :=
      ⟨s.next_user_id, pyStrip form.first_name ++ " " ++ pyStrip form.last_name,
        pyStrip form.username, pyStrip form.email,
        form.country_code ++ pyStrip form.phone_number, pwHash form.password,
        form.user_type⟩
    let s1 := { s with users := s.users ++ [user], next_user_id := s.next_user_id + 1 }
    if form.user_type == "runner" then
      (s1, .redirect "signin" ["Registration successful! Please sign in to continue."])
    else
      (s1, .redirect "home_page" ["Registration successful! Welcome to ErrandGo."])

/-- Embedding of the POST branch of `create_gas_delivery_errand`
(src/app.py lines 1532-1560), representative of the errand-creation
handlers: all of them require a logged-in client and append one errand with
`status="pending"` and the category's computed estimate.  A `quantity` that
`float()` rejects raises, rolling the request back. -/
def create_gas_delivery_errand (s : AppState) (sessionUser : Option Nat)
    (fuel_type quantity delivery_address : Option String) : AppState × Resp :=
  match sessionUser with
  | none => (s, .redirect "signin" [])
  | some uid =>
    match findUser s uid with
    | none => (s, .redirect "signin" ["Only clients can create errands"])
    | some u =>
      if u.user_type != "client" then
        (s, .redirect "signin" ["Only clients can create errands"])
      else
        match calculate_gas_price fuel_type quantity with
        | none => (s, .serverError)
        | some price =>
          let errand : Errand :=
            ⟨s.next_errand_id, u.id, "Gas Delivery", "Fuel station",
              (delivery_address.getD ""),
              "Deliver " ++ pyShow quantity ++ " of " ++ pyShow fuel_type
                ++ " to " ++ pyShow delivery_address,
              price, "pending"⟩
          let s1 := { s with
            errands := s.errands ++ [errand]
            next_errand_id := s.next_errand_id + 1 }
          (s1, .redirect "available_runners" ["Gas delivery errand created successfully!"])

/-- Price rendering in the f-string of `/negotiate`'s notification; a
missing price prints as `None`. -/
def pyShowPrice (o : Option ℚ) : String :=
  match o with
  | some q => toString q
  | none => "None"

/-- Embedding of `negotiate` (src/app.py lines 1936-1962).  `runner_id` is
the parsed form value — the column is NOT NULL, so a request without it
fails at commit with no state change and is outside the modelled action
space.  `offer_price`, however, is a nullable column: a missing or
unparseable price is stored as NULL (`none`). -/
def negotiate (s : AppState) (sessionUser : Option Nat) (errand_id : Option Nat)
    (runner_id : Nat) (offer_price : Option ℚ) : AppState × Resp :=
  match sessionUser with
  | none => (s, .redirect "signin" [])
  | some uid =>
    match findUser s uid with
    | none => (s, .json 403 "Authentication required")
    | some _u =>
      match errand_id with
      | none => (s, .json 404 "Errand not found")
      | some eid =>
        match findErrand s eid with
        | none => (s, .json 404 "Errand not found")
        | some e =>
          let s1 := { s with
            negotiations := s.negotiations ++
              [⟨s.next_negotiation_id, eid, runner_id, offer_price, "pending"⟩]
            next_negotiation_id := s.next_negotiation_id + 1 }
          let s2 := create_notification s1 e.client_id
            ("New price offer received for your errand: $" ++ pyShowPrice offer_price)
          (s2, .json 200 "Offer sent")

/-- Embedding of `accept_offer` (src/app.py lines 1965-1993).  Note the
handler performs no check on the current status of the negotiation or of the
errand. -/
def accept_offer (s : AppState) (now : Date) (sessionUser : Option Nat)
    (negotiation_id : Option Nat) : AppState × Resp :=
  match sessionUser with
  | none => (s, .redirect "signin" [])
  | some uid =>
    match findUser s uid with
    | none => (s, .json 403 "Authentication required")
    | some _u =>
      match negotiation_id with
      | none => (s, .json 404 "Negotiation not found")
      | some nid =>
        match findNegotiation s nid with
        | none => (s, .json 404 "Negotiation not found")
        | some n =>
          match findErrand s n.errand_id with
          | none => (s, .serverError)
          | some e =>
            let s1 := { s with
              negotiations := s.negotiations.map (fun m =>
                if m.id == nid then { m with status := "accepted" } else m)
              errands := s.errands.map (fun e2 =>
                if e2.id == n.errand_id then { e2 with status := "accepted" } else e2)
              active_errands := s.active_errands ++
                [⟨s.next_active_id, e.id, n.runner_id, now, none, "ongoing"⟩]
              next_active_id := s.next_active_id + 1 }
            let s2 := create_notification s1 e.client_id
              "Offer accepted! Your errand is now being processed by a runner."
            let s3 := create_notification s2 n.runner_id
              ("Congratulations! Your offer was accepted. Start the errand: " ++ e.type)
            (s3, .json 200 "Offer accepted")

/-- Embedding of `complete_errand` (src/app.py lines 1996-2019). -/
def complete_errand (s : AppState) (now : Date) (sessionUser : Option Nat)
    (active_errand_id : Option Nat) : AppState × Resp :=
  match sessionUser with
  | none => (s, .redirect "signin" [])
  | some uid =>
    match findUser s uid with
    | none => (s, .json 403 "Authentication required")
    | some u =>
      match active_errand_id with
      | none => (s, .json 404 "Errand not found or unauthorized")
      | some aid =>
        match findActive s aid with
        | none => (s, .json 404 "Errand not found or unauthorized")
        | some a =>
          if a.runner_id != u.id then
            (s, .json 404 "Errand not found or unauthorized")
          else
            match findErrand s a.errand_id with
            | none => (s, .serverError)
            | some e =>
              let s1 := { s with
                active_errands := s.active_errands.map (fun b =>
                  if b.id == aid then
                    { b with status := "completed", end_time := some now }
                  else b)
                errands := s.errands.map (fun e2 =>
                  if e2.id == a.errand_id then { e2 with status := "completed" } else e2) }
              let s2 := create_notification s1 e.client_id
                ("Your errand '" ++ e.type ++ "' has been completed!")
              (s2, .redirect "runnerhome" ["Errand marked as completed!"])

/-- Embedding of `errand_final` (src/app.py lines 2022-2090).  With
`action="accepted"` a runner accepts an errand directly; this path, unlike
`accept_offer`, does check `errand.status == "pending"`.  The Python `or`
falls back to the estimate when `runner_price` is missing or `0.0` (both
falsy). -/
def errand_final (s : AppState) (now : Date) (sessionUser : Option Nat)
    (errand_id : Option Nat) (runner_price : Option ℚ) (action : String) :
    AppState × Resp :=
  match sessionUser with
  | none => (s, .redirect "signin" [])
  | some uid =>
    match findUser s uid with
    | none => (s, .redirect "signin" [])
    | some u =>
      if u.user_type != "runner" then
        (s, .redirect "home_page" ["This page is for runners only"])
      else
        match errand_id with
        | none => (s, .redirect "runnerhome" ["Errand ID is required"])
        | some eid =>
          if eid == 0 then (s, .redirect "runnerhome" ["Errand ID is required"])
          else
            match findErrand s eid with
            | none => (s, .redirect "runnerhome" ["Errand not found"])
            | some e =>
              if action == "accepted" then
                if e.status != "pending" then
                  (s, .redirect "runnerhome" ["This errand is no longer available"])
                else
                  let offer : ℚ :=
                    match runner_price with
                    | some p => if p == 0 then e.price_estimate else p
                    | none => e.price_estimate
                  let s1 := { s with
                    negotiations := s.negotiations ++
                      [⟨s.next_negotiation_id, eid, u.id, some offer, "accepted"⟩]
                    next_negotiation_id := s.next_negotiation_id + 1
                    errands := s.errands.map (fun e2 =>
                      if e2.id == eid then { e2 with status := "accepted" } else e2)
                    active_errands := s.active_errands ++
                      [⟨s.next_active_id, eid, u.id, now, none, "ongoing"⟩]
                    next_active_id := s.next_active_id + 1 }
                  let s2 := create_notification s1 e.client_id
                    ("Your errand '" ++ e.type ++ "' has been accepted by a runner!")
                  let s3 := create_notification s2 u.id
                    ("You have accepted the errand: " ++ e.type)
                  (s3, .page "Errandfinal.html"
                    ["Errand accepted successfully! You can now start working on it."])
              else
                (s, .page "Errandfinal.html" [])

/-- Embedding of the JSON endpoint `rate_errand` at `/api/rate-errand`
(src/app.py lines 2397-2440).  The rating value and comment are the parsed
JSON fields. -/
def rate_errand (s : AppState) (now : Date) (sessionUser : Option Nat)
    (errand_id : Option Nat) (rating_value : Int) (comment : String) :
    AppState × Resp :=
  match sessionUser with
  | none => (s, .redirect "signin" [])
  | some uid =>
    match errand_id with
    | none => (s, .abort 404)
    | some eid =>
      match findErrand s eid with
      | none => (s, .abort 404)
      | some e =>
        match findUser s uid with
        | none => (s, .serverError)
        | some u =>
          if u.id != e.client_id then
            (s, .json 403 "Only clients can rate errands")
          else if e.status != "completed" then
            (s, .json 400 "Can only rate completed errands")
          else
            match firstActiveFor s eid with
            | none => (s, .json 404 "Active errand not found")
            | some a =>
              match s.ratings.find? (fun r =>
                  r.errand_id == eid && r.from_user_id == u.id
                    && r.to_user_id == a.runner_id) with
              | some ex =>
                ({ s with ratings := s.ratings.map (fun r =>
                    if r.id == ex.id then
                      { r with rating := rating_value, comment := comment,
                               created_at := now }
                    else r) },
                  .json 200 "success")
              | none =>
                let s1 := { s with
                  ratings := s.ratings ++
                    [⟨s.next_rating_id, eid, u.id, a.runner_id, rating_value,
                      comment, now⟩]
                  next_rating_id := s.next_rating_id + 1 }
                (s1, .json 200 "success")

/-- Shared save step of `rate_errand_old`: look up by (errand, rater) only,
update in place or insert. -/
def rateOldSave (s : AppState) (now : Date) (eid from_uid to_uid : Nat)
    (rating_value : Int) (comment : String) (referrer : String) :
    AppState × Resp :=
  let resp : Resp :=
    if containsSub referrer.data "completed_errands".data then
      .redirect "completed_errands" ["Thank you for your rating!"]
    else
      .redirect "order_history" ["Thank you for your rating!"]
  match s.ratings.find? (fun r => r.errand_id == eid && r.from_user_id == from_uid) with
  | some ex =>
    ({ s with ratings := s.ratings.map (fun r =>
        if r.id == ex.id then
          { r with rating := rating_value, comment := comment, created_at := now }
        else r) },
      resp)
  | none =>
    let s1 := { s with
      ratings := s.ratings ++
        [⟨s.next_rating_id, eid, from_uid, to_uid, rating_value, comment, now⟩]
      next_rating_id := s.next_rating_id + 1 }
    (s1, resp)

/-- Embedding of the form endpoint `rate_errand_old` at `/rate_errand`
(src/app.py lines 2525-2581). -/
def rate_errand_old (s : AppState) (now : Date) (sessionUser : Option Nat)
    (errand_id : Option Nat) (rating_value : Int) (comment : String)
    (referrer : String) : AppState × Resp :=
  match sessionUser with
  | none => (s, .redirect "signin" [])
  | some uid =>
    match findUser s uid with
    | none => (s, .json 403 "Authentication required")
    | some u =>
      match errand_id with
      | none => (s, .json 404 "Errand not found")
      | some eid =>
        match findErrand s eid with
        | none => (s, .json 404 "Errand not found")
        | some e =>
          if u.user_type == "client" && u.id == e.client_id then
            match firstActiveFor s eid with
            | none => (s, .json 404 "Active errand not found")
            | some a =>
              rateOldSave s now eid u.id a.runner_id rating_value (pyStrip comment) referrer
          else if u.user_type == "runner" then
            match s.active_errands.find? (fun a =>
                a.errand_id == eid && a.runner_id == u.id) with
            | none => (s, .json 403 "Not authorized to rate this errand")
            | some _a =>
              rateOldSave s now eid u.id e.client_id rating_value (pyStrip comment) referrer
          else
            (s, .json 403 "Not authorized to rate this errand")

/-- Requests to the state-mutating endpoints of the errand workflow, with
all their inputs: the request date, the session (the user id `/signin`
placed in it) and the parsed form/query/JSON fields. -/
inductive Act
  | signupA (now : Date) (form : SignupForm)
  | createGas (sess : Option Nat) (fuel_type quantity delivery_address : Option String)
  | negotiateA (sess : Option Nat) (errand_id : Option Nat) (runner_id : Nat)
      (offer_price : Option ℚ)
  | acceptOffer (now : Date) (sess : Option Nat) (negotiation_id : Option Nat)
  | completeErrand (now : Date) (sess : Option Nat) (active_errand_id : Option Nat)
  | errandFinal (now : Date) (sess : Option Nat) (errand_id : Option Nat)
      (runner_price : Option ℚ) (action : String)
  | rateErrand (now : Date) (sess : Option Nat) (errand_id : Option Nat)
      (rating : Int) (comment : String)
  | rateErrandOld (now : Date) (sess : Option Nat) (errand_id : Option Nat)
      (rating : Int) (comment : String) (referrer : String)

/-- State reached by one request. -/
def applyAct (s : AppState) : Act → AppState
  | .signupA now form => (signup s now form).1
  | .createGas sess ft q da => (create_gas_delivery_errand s sess ft q da).1
  | .negotiateA sess eid rid op => (negotiate s sess eid rid op).1
  | .acceptOffer now sess nid => (accept_offer s now sess nid).1
  | .completeErrand now sess aid => (complete_errand s now sess aid).1
  | .errandFinal now sess eid rp act => (errand_final s now sess eid rp act).1
  | .rateErrand now sess eid rv c => (rate_errand s now sess eid rv c).1
  | .rateErrandOld now sess eid rv c ref => (rate_errand_old s now sess eid rv c ref).1

/-- States reachable from the fresh database through the modelled
endpoints. -/
inductive Reachable : AppState → Prop
  | base : Reachable AppState.emptyState
  | step {s : AppState} (a : Act) : Reachable s → Reachable (applyAct s a)

/-- Number of negotiations of errand `eid` whose status is `"accepted"`. -/
def countAcceptedNegs (s : AppState) (eid : Nat) : Nat :=
  (s.negotiations.filter (fun n => n.errand_id == eid && n.status == "accepted")).length

/-- Number of active-errand rows pointing at errand `eid`. -/
def countActives (s : AppState) (eid : Nat) : Nat :=
  (s.active_errands.filter (fun a => a.errand_id == eid)).length

/-- Status of errand `eid` in state `s`, if the errand exists. -/
def errandStatusIn (s : AppState) (eid : Nat) : Option String :=
  (findErrand s eid).map (fun e => e.status)

/-- Number of rating rows for the (errand, rater) pair. -/
def ratingCountFor (s : AppState) (eid from_uid : Nat) : Nat :=
  (s.ratings.filter (fun r => r.errand_id == eid && r.from_user_id == from_uid)).length

/-- Position of a status in the forward lifecycle order
pending < accepted < completed of the specification. -/
def statusRank (st : String) : Nat :=
  if st == "completed" then 2
  else if st == "accepted" then 1
  else 0

/-- Request date used by the concrete scenarios below. -/
def d0 : Date := ⟨2026, 10, 12⟩

/-- Signup form of a client user. -/
def formAnn : SignupForm :=
  ⟨"Ann", "Moyo", "ann@mail.com", "771234567", "2000-01-01", "ann", "secret1",
    "secret1", "client", true, "+263"⟩

/-- Signup form of a runner user. -/
def formBob : SignupForm :=
  ⟨"Bob", "Dube", "bob@mail.com", "771234568", "1999-01-01", "bob", "secret1",
    "secret1", "runner", false, "+263"⟩

/-- Scenario: a client and a runner sign up, the client posts a gas-delivery
errand, the runner makes two price offers, and the client accepts BOTH
offers with two `/accept_offer` requests (the handler never checks whether
the errand was already accepted). -/
def trace1 : List Act :=
  [.signupA d0 formAnn,
   .signupA d0 formBob,
   .createGas (some 1) (some "diesel") (some "10") (some "Harare CBD"),
   .negotiateA (some 2) (some 1) 2 (some 8),
   .negotiateA (some 2) (some 1) 2 (some 9),
   .acceptOffer d0 (some 1) (some 1),
   .acceptOffer d0 (some 1) (some 2)]

/-- State after `trace1`. -/
def sDouble : AppState := trace1.foldl applyAct AppState.emptyState

/-- State after the first five requests of `trace1`: both offers are on
file, none accepted yet. -/
def sOffers : AppState := (trace1.take 5).foldl applyAct AppState.emptyState

/-- State after `trace1` followed by the runner completing the first
active errand. -/
def sCompleted : AppState := applyAct sDouble (.completeErrand d0 (some 2) (some 1))

/-- Signup form carrying a phone number that is not a valid Zimbabwe
mobile number. -/
def formBadPhone : SignupForm :=
  ⟨"Eve", "Jones", "eve@mail.com", "123", "2000-01-01", "eve", "secret1",
    "secret1", "client", true, "+263"⟩

/-- Scenario refuting the earnings fallback: the runner offers with NO
price (the form value is missing, so NULL is stored), the client accepts
that negotiation, and the runner completes the errand. -/
def traceNull : List Act :=
  [.signupA d0 formAnn,
   .signupA d0 formBob,
   .createGas (some 1) (some "diesel") (some "10") (some "Harare CBD"),
   .negotiateA (some 2) (some 1) 2 none,
   .acceptOffer d0 (some 1) (some 1),
   .completeErrand d0 (some 2) (some 1)]

/-- State after `traceNull`: a completed active errand whose accepted
negotiation has a NULL offer price. -/
def sNullPrice : AppState := traceNull.foldl applyAct AppState.emptyState

/-- State after `sCompleted` in which the runner (the only non-client
user) has rated the errand through `/rate_errand` twice. -/
def sRatedTwice : AppState :=
  applyAct (applyAct sCompleted (.rateErrandOld d0 (some 2) (some 1) 5 "good" ""))
    (.rateErrandOld d0 (some 2) (some 1) 4 "ok" "")

/-- Amount one completed active errand contributes to the earnings
aggregation: the price of the runner's accepted negotiation for its errand
when one exists (its NULL price, `none`, is the TypeError the aggregation
raises), the errand's original price estimate otherwise.  This is the
specification-side reading of the shared inner block of
`get_weekly_earnings` and `get_monthly_earnings`. -/
def earningContribution (s : AppState) (runner_id : Nat) (a : ActiveErrand) : Option ℚ :=
  match findAcceptedNeg s a.errand_id runner_id with
  | some n => n.offer_price
  | none => some (errandPriceEstimateD s a.errand_id)

/-- Forward evolution of the errand table under one request: same rows in
the same positions with the same ids, and each status either keeps or
increases its lifecycle rank — except possibly, when the escape hatch `P`
holds (used for the `/accept_offer` endpoint), a step from `"completed"`
back to `"accepted"`. -/
def ForwardOk (P : Prop) (old new : List Errand) : Prop :=
  new.length = old.length ∧
    ∀ i (h1 : i < old.length) (h2 : i < new.length),
      (new.get ⟨i, h2⟩).id = (old.get ⟨i, h1⟩).id
      ∧ (statusRank ((old.get ⟨i, h1⟩).status) ≤ statusRank ((new.get ⟨i, h2⟩).status)
        ∨ (P ∧ (old.get ⟨i, h1⟩).status = "completed"
            ∧ (new.get ⟨i, h2⟩).status = "accepted"))

/-- A completed active errand's end time falls in the month of `target`
(the bucket test of `get_monthly_earnings`). -/
def endsInMonth (target : Date) (a : ActiveErrand) : Bool :=
  match a.end_time with
  | some d => d.year == target.year && d.month == target.month
  | none => false

/-- At most one rating row per (errand, rater) pair. -/
def ratingKeysUnique (s : AppState) : Prop :=
  s.ratings.Pairwise (fun r1 r2 =>
    ¬(r1.errand_id = r2.errand_id ∧ r1.from_user_id = r2.from_user_id))

/-- Inductive invariant carried through every modelled request to establish
the rating-uniqueness claim. -/
structure Inv (s : AppState) : Prop where
  user_ids_lt : ∀ u ∈ s.users, u.id < s.next_user_id
  user_ids_unique : s.users.Pairwise (fun u v => u.id ≠ v.id)
  client_is_client : ∀ e ∈ s.errands,
    ∃ c ∈ s.users, c.id = e.client_id ∧ c.user_type = "client"
  rating_to_ok : ∀ r ∈ s.ratings,
    (∃ u ∈ s.users, u.id = r.from_user_id ∧ u.user_type = "runner") ∨
    (∃ a, firstActiveFor s r.errand_id = some a ∧ r.to_user_id = a.runner_id)
  ratings_unique : ratingKeysUnique s

/-- C6: the gas-delivery pricing function applied to fuel type `"diesel"`
and quantity `"10"` returns exactly 13.0, computed as 5.0 + 0.8 × 10. -/
theorem gas_price_diesel_ten :
    calculate_gas_price (some "diesel") (some "10") = some (5.0 + 0.8 * 10)
      ∧ (5.0 + 0.8 * 10 : ℚ) = 13.0 := by
  constructor
  · have hd : "10".data = ['1', '0'] := rfl
    have h10 : pyFloat? "10" = some 10 := by
      simp [pyFloat?, pyStrip, isPySpace, parseNatDigits, digitsVal, hd]
    simp [calculate_gas_price, h10]
  · norm_num

/-- C7: the package-delivery pricing function applied to weight `"20"`,
timeframe `"express"` and fragile flag `"yes"` returns exactly 25.5,
computed as (5.0 + 10.0) × 1.5 + 3.0. -/
theorem package_price_express_fragile :
    calculate_package_price (some "20") (some "express") (some "yes")
        = some ((5.0 + 10.0) * 1.5 + 3.0)
      ∧ ((5.0 + 10.0) * 1.5 + 3.0 : ℚ) = 25.5 := by
  constructor
  · have hd : "20".data = ['2', '0'] := rfl
    have h20 : pyFloat? "20" = some 20 := by
      simp [pyFloat?, pyStrip, isPySpace, parseNatDigits, digitsVal, hd]
    simp [calculate_package_price, h20]
    left
    norm_num
  · norm_num

/-- Filtering is unaffected by first dropping a run of elements the filter
rejects anyway. -/
theorem filter_dropWhile_eq {α} (p q : α → Bool) (h : ∀ a, q a = true → p a = false) :
    ∀ l : List α, (l.dropWhile q).filter p = l.filter p := by
  intro l
  induction l with
  | nil => rfl
  | cons a t ih =>
    by_cases hq : q a = true
    · rw [List.dropWhile_cons]
      simp [hq, ih, List.filter_cons, h a hq]
    · rw [List.dropWhile_cons]
      simp [hq]

/-- Whitespace characters are not digits. -/
theorem pySpace_not_digit : ∀ c, isPySpace c = true → isUnicodeDigit c = false := by
  intro c hc
  simp only [isPySpace, Bool.or_eq_true, beq_iff_eq] at hc
  rcases hc with ((((rfl | rfl) | rfl) | rfl) | rfl) | rfl <;> decide

/-- Python `str.strip()` does not change the digits of a string. -/
theorem digitsOnly_pyStrip (x : String) : digitsOnly (pyStrip x) = digitsOnly x := by
  show ((((x.data.dropWhile isPySpace).reverse.dropWhile isPySpace).reverse
      : List Char).filter isUnicodeDigit) = x.data.filter isUnicodeDigit
  rw [List.filter_reverse, filter_dropWhile_eq _ _ pySpace_not_digit,
    List.filter_reverse, List.reverse_reverse, filter_dropWhile_eq _ _ pySpace_not_digit]

/-- Characterisation of `validate_phone`: it accepts exactly the strings
whose digits form a 9-digit number starting with 71, 73, 77 or 78. -/
theorem validate_phone_iff (p : String) :
    validate_phone p = true ↔
      ((digitsOnly p).length = 9 ∧
        String.mk ((digitsOnly p).take 2) ∈ (["71", "73", "77", "78"] : List String)) := by
  unfold validate_phone
  by_cases hL : (digitsOnly p).length = 9
  · have hne : (digitsOnly p).isEmpty = false := by
      cases hd : digitsOnly p with
      | nil => rw [hd] at hL; simp at hL
      | cons a t => simp
    have hall : (digitsOnly p).all isUnicodeDigit = true := by
      rw [List.all_eq_true]
      intro c hc
      exact List.of_mem_filter hc
    by_cases hM : String.mk ((digitsOnly p).take 2) ∈ (["71", "73", "77", "78"] : List String)
    · have hMc : (["71", "73", "77", "78"] : List String).contains
          (String.mk ((digitsOnly p).take 2)) = true := by
        simpa [List.contains] using hM
      simp [hL, hMc, hne, hall, hM, pyStrIsDigit]
    · have hMc : (["71", "73", "77", "78"] : List String).contains
          (String.mk ((digitsOnly p).take 2)) = false := by
        simp only [List.contains]
        rw [Bool.eq_false_iff]
        intro hcon
        exact hM (by simpa using hcon)
      simp [hL, hMc, hM]
  · simp [hL]

/-- C9: a signup submission whose phone number does not consist of exactly
9 digits (after removing non-digit characters) beginning with 71, 73, 77 or
78 creates no user record — the whole store is left unchanged — and
redirects back to the signup form with a flash message; equivalently,
`validate_phone` returns true exactly for such numbers. -/
theorem signup_rejects_invalid_phone :
    (∀ p : String, validate_phone p = true ↔
      ((digitsOnly p).length = 9 ∧
        String.mk ((digitsOnly p).take 2) ∈ (["71", "73", "77", "78"] : List String)))
    ∧ (∀ (s : AppState) (now : Date) (form : SignupForm),
        ¬((digitsOnly form.phone_number).length = 9 ∧
          String.mk ((digitsOnly form.phone_number).take 2)
            ∈ (["71", "73", "77", "78"] : List String)) →
        (signup s now form).1 = s ∧
          ∃ msg, (signup s now form).2 = Resp.redirect "signup" [msg]) := by
  refine ⟨validate_phone_iff, ?_⟩
  intro s now form h
  have hph : validate_phone (pyStrip form.phone_number) = false := by
    rw [Bool.eq_false_iff]
    intro htrue
    rw [validate_phone_iff, digitsOnly_pyStrip] at htrue
    exact h htrue
  have hval : ∃ msg, signupValidationError s now form = some msg := by
    simp only [signupValidationError]
    split
    · exact ⟨_, rfl⟩
    split
    · exact ⟨_, rfl⟩
    split
    · exact ⟨_, rfl⟩
    rw [if_pos (by rw [hph]; rfl)]
    exact ⟨_, rfl⟩
  obtain ⟨msg, hmsg⟩ := hval
  simp only [signup, hmsg]
  exact ⟨trivial, msg, rfl⟩

/-- Witness for C9: `"771234567"` is accepted, and a signup with phone
`"123"` leaves the fresh store unchanged and redirects to the form. -/
theorem signup_rejects_invalid_phone_witness :
    (validate_phone "771234567" = true)
    ∧ ((signup AppState.emptyState d0 formBadPhone).1 = AppState.emptyState
      ∧ ∃ msg, (signup AppState.emptyState d0 formBadPhone).2
          = Resp.redirect "signup" [msg]) := by
  constructor
  · exact (signup_rejects_invalid_phone.1 "771234567").mpr (by constructor <;> decide)
  · exact signup_rejects_invalid_phone.2 AppState.emptyState d0 formBadPhone (by decide)

/-- C10: `get_available_errands_count` counts all pending errands when the
user has no runner profile or a profile with an empty city (the city filter
is silently disabled), and counts the pending errands whose pickup location
contains the city case-insensitively when a non-empty city is on file. -/
theorem available_errands_count_city_filter (s : AppState) (uid : Nat) :
    (findProfileByUser s uid = none →
      get_available_errands_count s uid
        = (s.errands.filter (fun e => e.status == "pending")).length)
    ∧ (∀ p, findProfileByUser s uid = some p → p.city = "" →
      get_available_errands_count s uid
        = (s.errands.filter (fun e => e.status == "pending")).length)
    ∧ (∀ p, findProfileByUser s uid = some p → p.city ≠ "" →
      get_available_errands_count s uid
        = (s.errands.filter (fun e =>
            e.status == "pending" && containsCI e.pickup_location p.city)).length) := by
  refine ⟨?_, ?_, ?_⟩
  · intro h
    simp [get_available_errands_count, h]
  · intro p h hc
    simp [get_available_errands_count, h, hc]
  · intro p h hc
    simp [get_available_errands_count, h, hc]

/-- Witness for C10: in the completed scenario the rating user has no
runner profile, so the count is over all pending errands (there are none
left). -/
theorem available_errands_count_city_filter_witness :
    get_available_errands_count sCompleted 2
      = (sCompleted.errands.filter (fun e => e.status == "pending")).length :=
  (available_errands_count_city_filter sCompleted 2).1 rfl

/-- C4: a successful `/accept_offer` call on an existing negotiation whose
errand exists performs all four effects: the negotiation's status becomes
`"accepted"`, the errand's status becomes `"accepted"`, exactly one new
active errand with the errand's id, the negotiation's runner, the request
time as start time and status `"ongoing"` is appended, and one notification
for the errand's client and one for the runner are created. -/
theorem accept_offer_effects (s : AppState) (d : Date) (uid nid : Nat)
    (u : User) (n : Negotiation) (e : Errand)
    (hu : findUser s uid = some u) (hn : findNegotiation s nid = some n)
    (he : findErrand s n.errand_id = some e) :
    (∀ m ∈ (accept_offer s d (some uid) (some nid)).1.negotiations,
        m.id = nid → m.status = "accepted")
    ∧ (∀ e2 ∈ (accept_offer s d (some uid) (some nid)).1.errands,
        e2.id = n.errand_id → e2.status = "accepted")
    ∧ (accept_offer s d (some uid) (some nid)).1.active_errands
        = s.active_errands ++ [⟨s.next_active_id, e.id, n.runner_id, d, none, "ongoing"⟩]
    ∧ (accept_offer s d (some uid) (some nid)).1.notifications
        = s.notifications ++
          [⟨s.next_notification_id, e.client_id,
            "Offer accepted! Your errand is now being processed by a runner.", false⟩,
           ⟨s.next_notification_id + 1, n.runner_id,
            "Congratulations! Your offer was accepted. Start the errand: " ++ e.type, false⟩]
    ∧ (accept_offer s d (some uid) (some nid)).2 = Resp.json 200 "Offer accepted" := by
  simp only [accept_offer, hu, hn, he, create_notification]
  refine ⟨?_, ?_, trivial, by simp, trivial⟩
  · intro m hm hid
    obtain ⟨m0, hm0, rfl⟩ := List.mem_map.1 hm
    by_cases h0 : (m0.id == nid) = true
    · simp [h0]
    · rw [if_neg h0] at hid ⊢
      exact absurd (by simpa using hid) h0
  · intro e2 he2 hid
    obtain ⟨e0, he0, rfl⟩ := List.mem_map.1 he2
    by_cases h0 : (e0.id == n.errand_id) = true
    · simp [h0]
    · rw [if_neg h0] at hid ⊢
      exact absurd (by simpa using hid) h0

/-- Witness for C4: accepting the first offer of the two-offer scenario
succeeds. -/
theorem accept_offer_effects_witness :
    (accept_offer sOffers d0 (some 1) (some 1)).2 = Resp.json 200 "Offer accepted" := by
  obtain ⟨e, he⟩ : ∃ e, findErrand sOffers 1 = some e := ⟨_, rfl⟩
  exact (accept_offer_effects sOffers d0 1 1 _ _ e rfl rfl he).2.2.2.2

/-- C5: under foreign-key integrity, `/complete_errand` succeeds exactly
when the given active errand exists and the logged-in caller is its
assigned runner; on success it marks the active errand completed with the
request time as end timestamp and cascades `"completed"` to the linked
errand, and on failure it returns a 404 error and leaves the store
unchanged. -/
theorem complete_errand_spec (s : AppState) (d : Date) (uid : Nat) (u : User)
    (hu : findUser s uid = some u)
    (hfk : ∀ a ∈ s.active_errands, ∃ e ∈ s.errands, e.id = a.errand_id)
    (aid : Nat) :
    (match findActive s aid with
     | some a =>
       if a.runner_id = u.id then
         (∀ b ∈ (complete_errand s d (some uid) (some aid)).1.active_errands,
             b.id = aid → b.status = "completed" ∧ b.end_time = some d)
         ∧ (∀ e2 ∈ (complete_errand s d (some uid) (some aid)).1.errands,
             e2.id = a.errand_id → e2.status = "completed")
         ∧ (complete_errand s d (some uid) (some aid)).2
             = Resp.redirect "runnerhome" ["Errand marked as completed!"]
       else
         (complete_errand s d (some uid) (some aid)).1 = s
         ∧ (complete_errand s d (some uid) (some aid)).2
             = Resp.json 404 "Errand not found or unauthorized"
     | none =>
       (complete_errand s d (some uid) (some aid)).1 = s
       ∧ (complete_errand s d (some uid) (some aid)).2
           = Resp.json 404 "Errand not found or unauthorized") := by
  cases hfa : findActive s aid with
  | none => exact ⟨by simp [complete_errand, hu, hfa], by simp [complete_errand, hu, hfa]⟩
  | some a =>
    dsimp only
    by_cases hr : a.runner_id = u.id
    · rw [if_pos hr]
      have hmem : a ∈ s.active_errands := List.mem_of_find?_eq_some hfa
      obtain ⟨e, hemem, hid⟩ := hfk a hmem
      have hsome : (findErrand s a.errand_id).isSome := by
        unfold findErrand
        rw [List.find?_isSome]
        exact ⟨e, hemem, by simpa using hid⟩
      obtain ⟨e1, hfe⟩ := Option.isSome_iff_exists.1 hsome
      have hbne : (a.runner_id != u.id) = false := by simp [hr]
      simp only [complete_errand, hu, hfa, hfe, hbne, Bool.false_eq_true, if_false,
        create_notification]
      refine ⟨?_, ?_, trivial⟩
      · intro b hb hbid
        obtain ⟨b0, hb0, rfl⟩ := List.mem_map.1 hb
        by_cases h0 : (b0.id == aid) = true
        · simp [h0]
        · rw [if_neg h0] at hbid ⊢
          exact absurd (by simpa using hbid) h0
      · intro e2 he2 hid2
        obtain ⟨e0, he0, rfl⟩ := List.mem_map.1 he2
        by_cases h0 : (e0.id == a.errand_id) = true
        · simp [h0]
        · rw [if_neg h0] at hid2 ⊢
          exact absurd (by simpa using hid2) h0
    · rw [if_neg hr]
      have hbne : (a.runner_id != u.id) = true := by simp [hr]
      exact ⟨by simp [complete_errand, hu, hfa, hbne],
        by simp [complete_errand, hu, hfa, hbne]⟩

/-- Witness for C5: in the double-accept scenario the assigned runner can
complete the first active errand. -/
theorem complete_errand_spec_witness :
    (complete_errand sDouble d0 (some 2) (some 1)).2
      = Resp.redirect "runnerhome" ["Errand marked as completed!"] := by
  have h := complete_errand_spec sDouble d0 2
    ⟨2, "Bob Dube", "bob", "bob@mail.com", "+263771234568", "pbkdf2-secret1", "runner"⟩
    rfl (by decide) 1
  exact (h : _ ∧ _ ∧ _).2.2

/-- The double-accept scenario state is reachable through the modelled
endpoints starting from the fresh database. -/
theorem sDouble_reachable : Reachable sDouble := by
  have h0 := Reachable.base
  have h1 := Reachable.step (.signupA d0 formAnn) h0
  have h2 := Reachable.step (.signupA d0 formBob) h1
  have h3 := Reachable.step
    (.createGas (some 1) (some "diesel") (some "10") (some "Harare CBD")) h2
  have h4 := Reachable.step (.negotiateA (some 2) (some 1) 2 (some 8)) h3
  have h5 := Reachable.step (.negotiateA (some 2) (some 1) 2 (some 9)) h4
  have h6 := Reachable.step (.acceptOffer d0 (some 1) (some 1)) h5
  exact Reachable.step (.acceptOffer d0 (some 1) (some 2)) h6

/-- The completed scenario state is reachable. -/
theorem sCompleted_reachable : Reachable sCompleted :=
  Reachable.step (.completeErrand d0 (some 2) (some 1)) sDouble_reachable

/-- Counterexample to C1: a reachable state (client accepts two offers on
the same errand through `/accept_offer`, which never checks the errand's
status) carrying TWO accepted negotiations and TWO active errands for
errand 1 — not "exactly one" of each. -/
theorem double_accept_counterexample :
    Reachable sDouble ∧ countAcceptedNegs sDouble 1 = 2 ∧ countActives sDouble 1 = 2 :=
  ⟨sDouble_reachable, by decide, by decide⟩

/-- Accepting negotiation `nid` turns exactly one row of a duplicate-free
negotiation table with no previously accepted row for the errand into an
accepted one. -/
theorem count_after_accept (nid eid : Nat) :
    ∀ (l : List Negotiation),
    (∀ m ∈ l, ¬(m.errand_id = eid ∧ m.status = "accepted")) →
    l.Pairwise (fun m1 m2 => m1.id ≠ m2.id) →
    ∀ n, l.find? (fun m => m.id == nid) = some n → n.errand_id = eid →
    ((l.map (fun m => if m.id == nid then { m with status := "accepted" } else m)).filter
      (fun m => m.errand_id == eid && m.status == "accepted")).length = 1 := by
  intro l
  induction l with
  | nil => intro _ _ n hfind; simp at hfind
  | cons a t ih =>
    intro hzero hpw n hfind heid
    by_cases ha : (a.id == nid) = true
    · simp only [List.find?_cons, ha] at hfind
      have hna : a = n := by injection hfind
      subst hna
      rw [List.map_cons, List.filter_cons, if_pos ha]
      have hq : (({ a with status := "accepted" } : Negotiation).errand_id == eid
          && ({ a with status := "accepted" } : Negotiation).status == "accepted") = true := by
        simp [heid]
      rw [if_pos hq]
      have hrest : ((t.map (fun m =>
          if m.id == nid then { m with status := "accepted" } else m)).filter
          (fun m => m.errand_id == eid && m.status == "accepted")) = [] := by
        rw [List.filter_eq_nil_iff]
        intro b hb
        obtain ⟨m0, hm0, rfl⟩ := List.mem_map.1 hb
        have hne : a.id ≠ m0.id := (List.pairwise_cons.1 hpw).1 m0 hm0
        have hm0id : ¬((m0.id == nid) = true) := by
          intro hb2
          exact hne (by rw [(by simpa using ha : a.id = nid),
            (by simpa using hb2 : m0.id = nid)])
        rw [if_neg hm0id]
        simp only [Bool.and_eq_true, beq_iff_eq]
        rintro ⟨hb1, hb2⟩
        exact hzero m0 (List.mem_cons_of_mem _ hm0) ⟨hb1, hb2⟩
      rw [hrest]
      rfl
    · have ha2 : (a.id == nid) = false := by simpa using ha
      simp only [List.find?_cons, ha2] at hfind
      rw [List.map_cons, List.filter_cons, if_neg ha]
      have hq : (a.errand_id == eid && a.status == "accepted") = false := by
        cases hq0 : (a.errand_id == eid && a.status == "accepted") with
        | false => rfl
        | true =>
          exfalso
          simp only [Bool.and_eq_true, beq_iff_eq] at hq0
          exact hzero a (List.mem_cons_self a t) hq0
      rw [if_neg (by rw [hq]; exact Bool.false_ne_true)]
      exact ih (fun m hm => hzero m (List.mem_cons_of_mem _ hm))
        (List.pairwise_cons.1 hpw).2 n hfind heid

/-- C1 amended: a successful `/accept_offer` call on a negotiation whose
errand has no accepted negotiation and no active errand yet yields exactly
one accepted negotiation and exactly one active errand for that errand.
Without that precondition the "exactly one / at most one" part of the
claim fails: the endpoint performs no exclusivity check, and repeated
accepts reach states with two of each (see the counterexample). -/
theorem accept_offer_exclusive (s : AppState) (d : Date) (uid nid : Nat)
    (u : User) (n : Negotiation) (e : Errand)
    (hu : findUser s uid = some u) (hn : findNegotiation s nid = some n)
    (he : findErrand s n.errand_id = some e)
    (hpw : s.negotiations.Pairwise (fun m1 m2 => m1.id ≠ m2.id))
    (h0a : countAcceptedNegs s n.errand_id = 0)
    (h0b : countActives s n.errand_id = 0) :
    countAcceptedNegs (accept_offer s d (some uid) (some nid)).1 n.errand_id = 1
    ∧ countActives (accept_offer s d (some uid) (some nid)).1 n.errand_id = 1 := by
  have hzero : ∀ m ∈ s.negotiations, ¬(m.errand_id = n.errand_id ∧ m.status = "accepted") := by
    intro m hm hcon
    have hnil : (s.negotiations.filter (fun m2 =>
        m2.errand_id == n.errand_id && m2.status == "accepted")) = [] := by
      have := h0a
      unfold countAcceptedNegs at this
      exact List.length_eq_zero.1 this
    have := List.filter_eq_nil_iff.1 hnil m hm
    simp only [Bool.and_eq_true, beq_iff_eq] at this
    exact this ⟨hcon.1, hcon.2⟩
  constructor
  · simp only [countAcceptedNegs, accept_offer, hu, hn, he, create_notification]
    exact count_after_accept nid n.errand_id s.negotiations hzero hpw n hn rfl
  · simp only [countActives, accept_offer, hu, hn, he, create_notification]
    rw [List.filter_append, List.length_append]
    have h1 : (s.active_errands.filter (fun a2 => a2.errand_id == n.errand_id)).length = 0 := by
      have := h0b
      unfold countActives at this
      exact this
    have he2 : s.errands.find? (fun e2 => e2.id == n.errand_id) = some e := he
    have hpred : (e.id == n.errand_id) = true := by simpa using List.find?_some he2
    rw [h1]
    simp [hpred]

/-- Witness for the amended C1: accepting the first offer of the scenario,
before any other acceptance, gives exactly one accepted negotiation and one
active errand. -/
theorem accept_offer_exclusive_witness :
    countAcceptedNegs (accept_offer sOffers d0 (some 1) (some 1)).1 1 = 1
    ∧ countActives (accept_offer sOffers d0 (some 1) (some 1)).1 1 = 1 := by
  obtain ⟨e, he⟩ : ∃ e, findErrand sOffers 1 = some e := ⟨_, rfl⟩
  exact accept_offer_exclusive sOffers d0 1 1 _ _ e rfl rfl he
    (by decide) (by decide) (by decide)

/-- Lifecycle rank never exceeds the rank of `"completed"`. -/
theorem statusRank_le_two (st : String) : statusRank st ≤ 2 := by
  unfold statusRank
  by_cases h1 : (st == "completed") = true
  · simp [h1]
  · simp only [h1, if_false, Bool.false_eq_true]
    by_cases h2 : (st == "accepted") = true
    · simp [h2]
    · simp [h2]

/-- Any status other than `"completed"` has rank at most that of
`"accepted"`. -/
theorem statusRank_le_one_of_ne (st : String) (h : st ≠ "completed") : statusRank st ≤ 1 := by
  unfold statusRank
  rw [if_neg (by simpa using h)]
  by_cases h2 : (st == "accepted") = true
  · simp [h2]
  · simp [h2]

/-- Rank of `"accepted"`. -/
theorem statusRank_accepted : statusRank "accepted" = 1 := by decide

/-- Rank of `"completed"`. -/
theorem statusRank_completed : statusRank "completed" = 2 := by decide

/-- An unchanged errand table evolves forward. -/
theorem forwardOk_refl (P : Prop) (l : List Errand) : ForwardOk P l l :=
  ⟨rfl, fun _ _ _ => ⟨rfl, Or.inl le_rfl⟩⟩

/-- A row-wise update evolves the errand table forward when every row's
update is id-preserving and rank-nondecreasing (or covered by `P`). -/
theorem forwardOk_map (P : Prop) (l : List Errand) (f : Errand → Errand)
    (hid : ∀ e, (f e).id = e.id)
    (hrank : ∀ e ∈ l, statusRank e.status ≤ statusRank (f e).status
      ∨ (P ∧ e.status = "completed" ∧ (f e).status = "accepted")) :
    ForwardOk P l (l.map f) := by
  refine ⟨List.length_map _ _, fun i h1 h2 => ?_⟩
  have hget : (l.map f).get ⟨i, h2⟩ = f (l.get ⟨i, h1⟩) := by
    rw [List.get_eq_getElem, List.get_eq_getElem, List.getElem_map]
  rw [hget]
  exact ⟨hid _, hrank _ (List.get_mem l i h1)⟩

/-- Two members of a list with pairwise-distinct keys and equal keys are
the same element. -/
theorem eq_of_mem_unique_ids {α : Type} (key : α → Nat) (l : List α)
    (hp : l.Pairwise (fun x y => key x ≠ key y)) {x y : α}
    (hx : x ∈ l) (hy : y ∈ l) (hk : key x = key y) : x = y := by
  by_contra hne
  have hsymm : Symmetric (fun a b : α => key a ≠ key b) := by
    intro p q hpq he
    exact hpq he.symm
  exact (hp.forall hsymm) hx hy hne hk

/-- C2 amended: under the three lifecycle endpoints (`/accept_offer`,
`/complete_errand`, `/Errandfinal.html`) an errand table with distinct ids
keeps its rows and ids, and every status keeps or increases its
pending→accepted→completed rank — EXCEPT that `/accept_offer`, which sets
the errand to `"accepted"` unconditionally, can move an already-completed
errand back to `"accepted"` (the escape hatch of `ForwardOk`; the
counterexample shows it is reachable, refuting the claim as stated). -/
theorem errand_status_forward (s : AppState) (a : Act)
    (hids : s.errands.Pairwise (fun e1 e2 => e1.id ≠ e2.id))
    (hkind : (∃ d sess nid, a = Act.acceptOffer d sess nid)
      ∨ (∃ d sess aid, a = Act.completeErrand d sess aid)
      ∨ (∃ d sess eid rp act, a = Act.errandFinal d sess eid rp act)) :
    ForwardOk (∃ d sess nid, a = Act.acceptOffer d sess nid)
      s.errands (applyAct s a).errands := by
  rcases hkind with ⟨d, sess, nid, rfl⟩ | ⟨d, sess, aid, rfl⟩ | ⟨d, sess, eid, rp, act, rfl⟩
  · have hP : ∃ d1 sess1 nid1,
        Act.acceptOffer d sess nid = Act.acceptOffer d1 sess1 nid1 := ⟨d, sess, nid, rfl⟩
    simp only [applyAct]
    cases sess with
    | none => exact forwardOk_refl _ _
    | some uid =>
      cases hfu : findUser s uid with
      | none => simp only [accept_offer, hfu]; exact forwardOk_refl _ _
      | some u =>
        cases nid with
        | none => simp only [accept_offer, hfu]; exact forwardOk_refl _ _
        | some nid2 =>
          cases hfn : findNegotiation s nid2 with
          | none => simp only [accept_offer, hfu, hfn]; exact forwardOk_refl _ _
          | some n =>
            cases hfe : findErrand s n.errand_id with
            | none => simp only [accept_offer, hfu, hfn, hfe]; exact forwardOk_refl _ _
            | some e =>
              simp only [accept_offer, hfu, hfn, hfe, create_notification]
              apply forwardOk_map
              · intro e2
                by_cases h : (e2.id == n.errand_id) = true
                · rw [if_pos h]
                · rw [if_neg h]
              · intro e2 _
                by_cases h : (e2.id == n.errand_id) = true
                · rw [if_pos h]
                  by_cases hc : e2.status = "completed"
                  · exact Or.inr ⟨hP, hc, rfl⟩
                  · refine Or.inl ?_
                    rw [show ({ e2 with status := "accepted" } : Errand).status
                      = "accepted" from rfl, statusRank_accepted]
                    exact statusRank_le_one_of_ne _ hc
                · rw [if_neg h]
                  exact Or.inl le_rfl
  · simp only [applyAct]
    cases sess with
    | none => exact forwardOk_refl _ _
    | some uid =>
      cases hfu : findUser s uid with
      | none => simp only [complete_errand, hfu]; exact forwardOk_refl _ _
      | some u =>
        cases aid with
        | none => simp only [complete_errand, hfu]; exact forwardOk_refl _ _
        | some aid2 =>
          cases hfa : findActive s aid2 with
          | none => simp only [complete_errand, hfu, hfa]; exact forwardOk_refl _ _
          | some a2 =>
            by_cases hbne : (a2.runner_id != u.id) = true
            · simp only [complete_errand, hfu, hfa, hbne, if_true]
              exact forwardOk_refl _ _
            · have hbne2 : (a2.runner_id != u.id) = false := by simpa using hbne
              cases hfe : findErrand s a2.errand_id with
              | none =>
                simp only [complete_errand, hfu, hfa, hbne2, Bool.false_eq_true,
                  if_false, hfe]
                exact forwardOk_refl _ _
              | some e =>
                simp only [complete_errand, hfu, hfa, hbne2, Bool.false_eq_true,
                  if_false, hfe, create_notification]
                apply forwardOk_map
                · intro e2
                  by_cases h : (e2.id == a2.errand_id) = true
                  · rw [if_pos h]
                  · rw [if_neg h]
                · intro e2 _
                  by_cases h : (e2.id == a2.errand_id) = true
                  · rw [if_pos h]
                    refine Or.inl ?_
                    rw [show ({ e2 with status := "completed" } : Errand).status
                      = "completed" from rfl, statusRank_completed]
                    exact statusRank_le_two _
                  · rw [if_neg h]
                    exact Or.inl le_rfl
  · simp only [applyAct]
    cases sess with
    | none => exact forwardOk_refl _ _
    | some uid =>
      cases hfu : findUser s uid with
      | none => simp only [errand_final, hfu]; exact forwardOk_refl _ _
      | some u =>
        by_cases htype : (u.user_type != "runner") = true
        · simp only [errand_final, hfu, htype, if_true]
          exact forwardOk_refl _ _
        · have htype2 : (u.user_type != "runner") = false := by simpa using htype
          cases eid with
          | none =>
            simp only [errand_final, hfu, htype2, Bool.false_eq_true, if_false]
            exact forwardOk_refl _ _
          | some eid2 =>
            by_cases h0 : (eid2 == 0) = true
            · simp only [errand_final, hfu, htype2, Bool.false_eq_true, if_false, h0,
                if_true]
              exact forwardOk_refl _ _
            · have h02 : (eid2 == 0) = false := by simpa using h0
              cases hfe : findErrand s eid2 with
              | none =>
                simp only [errand_final, hfu, htype2, Bool.false_eq_true, if_false,
                  h02, hfe]
                exact forwardOk_refl _ _
              | some e =>
                by_cases hact : (act == "accepted") = true
                · by_cases hpend : (e.status != "pending") = true
                  · simp only [errand_final, hfu, htype2, Bool.false_eq_true, if_false,
                      h02, hfe, hact, if_true, hpend]
                    exact forwardOk_refl _ _
                  · have hpend2 : (e.status != "pending") = false := by simpa using hpend
                    have hpend3 : e.status = "pending" := by simpa using hpend
                    simp only [errand_final, hfu, htype2, Bool.false_eq_true, if_false,
                      h02, hfe, hact, if_true, hpend2, create_notification]
                    apply forwardOk_map
                    · intro e2
                      by_cases h : (e2.id == eid2) = true
                      · rw [if_pos h]
                      · rw [if_neg h]
                    · intro e2 hmem
                      by_cases h : (e2.id == eid2) = true
                      · rw [if_pos h]
                        have hee : e ∈ s.errands := List.mem_of_find?_eq_some hfe
                        have heid : e.id = eid2 := by
                          have he2 : s.errands.find? (fun x => x.id == eid2) = some e := hfe
                          simpa using List.find?_some he2
                        have he2id : e2.id = eid2 := by simpa using h
                        have heq : e2 = e := eq_of_mem_unique_ids (fun x => x.id) s.errands
                          hids hmem hee (by show e2.id = e.id; rw [he2id, heid])
                        refine Or.inl ?_
                        rw [show ({ e2 with status := "accepted" } : Errand).status
                          = "accepted" from rfl, statusRank_accepted, heq, hpend3]
                        decide
                      · rw [if_neg h]
                        exact Or.inl le_rfl
                · have hact2 : (act == "accepted") = false := by simpa using hact
                  simp only [errand_final, hfu, htype2, Bool.false_eq_true, if_false,
                    h02, hfe, hact2]
                  exact forwardOk_refl _ _

/-- Counterexample to C2: errand 1 is `"completed"` in a reachable state,
and one further `/accept_offer` call (accepting the other, still-recorded
negotiation) moves it BACK to `"accepted"` — a backward transition. -/
theorem status_backward_counterexample :
    Reachable sCompleted ∧ errandStatusIn sCompleted 1 = some "completed"
    ∧ errandStatusIn (applyAct sCompleted (Act.acceptOffer d0 (some 1) (some 2))) 1
        = some "accepted" :=
  ⟨sCompleted_reachable, by decide, by decide⟩

/-- Witness for the amended C2 at a concrete accept-offer request. -/
theorem errand_status_forward_witness :
    ForwardOk (∃ d sess nid,
        Act.acceptOffer d0 (some 1) (some 1) = Act.acceptOffer d sess nid)
      sOffers.errands
      (applyAct sOffers (Act.acceptOffer d0 (some 1) (some 1))).errands :=
  errand_status_forward sOffers (Act.acceptOffer d0 (some 1) (some 1)) (by decide)
    (Or.inl ⟨d0, some 1, some 1, rfl⟩)

/-- Folding an optional guarded accumulation whose body is total on the
list equals the starting value plus the sum of the guarded
contributions. -/
theorem foldl_opt_guard_sum {α : Type} (f : α → ℚ) (p : α → Bool)
    (body : Option ℚ → α → Option ℚ) :
    ∀ (l : List α),
      (∀ a ∈ l, ∀ v : ℚ, body (some v) a = some (if p a then v + f a else v)) →
      ∀ acc : ℚ, l.foldl body (some acc) = some (acc + ((l.filter p).map f).sum) := by
  intro l
  induction l with
  | nil => intro _ acc; simp
  | cons a t ih =>
    intro hb acc
    rw [List.foldl_cons, hb a (List.mem_cons_self a t) acc]
    by_cases h : p a = true
    · rw [if_pos h, List.filter_cons_of_pos h, List.map_cons, List.sum_cons,
        ih (fun x hx => hb x (List.mem_cons_of_mem _ hx)) (acc + f a)]
      exact congrArg some (by ring)
    · rw [if_neg h, List.filter_cons_of_neg h,
        ih (fun x hx => hb x (List.mem_cons_of_mem _ hx)) acc]

/-- Mapping a fallible function that succeeds on every element of the
list succeeds with the pointwise results. -/
theorem mapM_eq_some_map {α β : Type} (f : α → Option β) (g : α → β) :
    ∀ l : List α, (∀ a ∈ l, f a = some (g a)) → l.mapM f = some (l.map g) := by
  intro l
  induction l with
  | nil => intro _; rfl
  | cons a t ih =>
    intro h
    rw [List.mapM_cons, h a (List.mem_cons_self a t),
      ih (fun x hx => h x (List.mem_cons_of_mem _ hx))]
    rfl

/-- On an active errand whose accepted negotiation (if any) carries a
price, the weekly loop body is a total guarded accumulation of
`earningContribution`. -/
theorem dayLoopBody_guard (s : AppState) (r : Nat) (day : Date) (a : ActiveErrand)
    (ha : ∀ n, findAcceptedNeg s a.errand_id r = some n → n.offer_price.isSome = true)
    (v : ℚ) :
    dayLoopBody s r day (some v) a
      = some (if a.end_time == some day then
          v + (earningContribution s r a).getD 0 else v) := by
  unfold dayLoopBody earningContribution
  cases he : a.end_time with
  | none => simp
  | some dd =>
    cases hf : findAcceptedNeg s a.errand_id r with
    | none =>
      cases hd : (dd == day) <;> simp [hd]
    | some n =>
      cases hp : n.offer_price with
      | none =>
        have hcon := ha n hf
        rw [hp] at hcon
        simp at hcon
      | some p =>
        cases hd : (dd == day) <;> simp [hd, hp]

/-- On an active errand whose accepted negotiation (if any) carries a
price, the monthly loop body is a total guarded accumulation of
`earningContribution`. -/
theorem monthLoopBody_guard (s : AppState) (r : Nat) (target : Date) (a : ActiveErrand)
    (ha : ∀ n, findAcceptedNeg s a.errand_id r = some n → n.offer_price.isSome = true)
    (v : ℚ) :
    monthLoopBody s r target (some v) a
      = some (if endsInMonth target a then
          v + (earningContribution s r a).getD 0 else v) := by
  unfold monthLoopBody earningContribution endsInMonth
  cases he : a.end_time with
  | none => simp
  | some dd =>
    cases hf : findAcceptedNeg s a.errand_id r with
    | none =>
      cases hd : (dd.year == target.year && dd.month == target.month) <;> simp [hd]
    | some n =>
      cases hp : n.offer_price with
      | none =>
        have hcon := ha n hf
        rw [hp] at hcon
        simp at hcon
      | some p =>
        cases hd : (dd.year == target.year && dd.month == target.month) <;>
          simp [hd, hp]

/-- When `a` is the unique element satisfying `p`, the first hit of
`find?` is `a`. -/
theorem find?_eq_some_of_unique {α : Type} (p : α → Bool) :
    ∀ (l : List α) (a : α), a ∈ l → p a = true → (∀ b ∈ l, p b = true → b = a) →
      l.find? p = some a := by
  intro l
  induction l with
  | nil => intro a ha; simp at ha
  | cons c t ih =>
    intro a ha hpa huniq
    by_cases hc : p c = true
    · have hca : c = a := huniq c (List.mem_cons_self c t) hc
      subst hca
      simp [List.find?_cons, hc]
    · have hc2 : p c = false := by simpa using hc
      simp only [List.find?_cons, hc2]
      have hat : a ∈ t := by
        rcases List.mem_cons.1 ha with rfl | h
        · exact absurd hpa hc
        · exact h
      exact ih a hat hpa (fun b hb hpb => huniq b (List.mem_cons_of_mem _ hb) hpb)

/-- C3 (amended): for every completed active errand of a runner the
earnings aggregations add the accepted negotiation's offer price whenever
an accepted negotiation exists (in particular when it is unique); the
errand's original price estimate is used only when NO accepted
negotiation exists, and a NULL accepted price — reachable through
`/negotiate` with a missing price field — makes both aggregations raise a
TypeError instead of falling back.  When every accepted price is present,
each weekly bucket is the sum of the per-errand contributions over the
runner's completed active errands ending on that day, and each monthly
bucket over those ending in that month. -/
theorem earnings_accepted_price (s : AppState) (r : Nat) (today : Date) :
    (∀ (a : ActiveErrand) (n : Negotiation), findAcceptedNeg s a.errand_id r = some n →
        earningContribution s r a = n.offer_price)
    ∧ (∀ (a : ActiveErrand) (n : Negotiation) (P : ℚ),
        findAcceptedNeg s a.errand_id r = some n → n.offer_price = some P →
        earningContribution s r a = some P)
    ∧ (∀ (a : ActiveErrand) (e : Errand), findAcceptedNeg s a.errand_id r = none →
        findErrand s a.errand_id = some e →
        earningContribution s r a = some e.price_estimate)
    ∧ (∀ n ∈ s.negotiations, n.runner_id = r → n.status = "accepted" →
        (∀ m ∈ s.negotiations, m.errand_id = n.errand_id → m.runner_id = r →
          m.status = "accepted" → m = n) →
        ∀ a : ActiveErrand, a.errand_id = n.errand_id →
          earningContribution s r a = n.offer_price)
    ∧ ((∀ a ∈ s.active_errands.filter (fun x =>
          x.runner_id == r && x.status == "completed"),
        ∀ n, findAcceptedNeg s a.errand_id r = some n → n.offer_price.isSome = true) →
      get_weekly_earnings s r today
        = some (((List.range 7).map (fun i =>
            (today.subDays i,
              (((s.active_errands.filter (fun x =>
                  x.runner_id == r && x.status == "completed")).filter (fun x =>
                  x.end_time == some (today.subDays i))).map (fun x =>
                  (earningContribution s r x).getD 0)).sum))).reverse)
      ∧ get_monthly_earnings s r today
        = some ((List.range 6).map (fun j =>
            ((((⟨today.year, today.month, 1⟩ : Date).subDays (30 * (5 - j))).year,
              ((⟨today.year, today.month, 1⟩ : Date).subDays (30 * (5 - j))).month),
              (((s.active_errands.filter (fun x =>
                  x.runner_id == r && x.status == "completed")).filter
                  (endsInMonth ((⟨today.year, today.month, 1⟩ : Date).subDays
                    (30 * (5 - j))))).map (fun x =>
                  (earningContribution s r x).getD 0)).sum)))) := by
  have hcontrib : ∀ (a : ActiveErrand) (n : Negotiation),
      findAcceptedNeg s a.errand_id r = some n →
      earningContribution s r a = n.offer_price := by
    intro a n h
    unfold earningContribution
    rw [h]
  refine ⟨hcontrib, ?_, ?_, ?_, ?_⟩
  · intro a n P h1 h2
    rw [hcontrib a n h1, h2]
  · intro a e h1 h2
    unfold earningContribution errandPriceEstimateD
    rw [h1, h2]
  · intro n hmem hr hst huniq a haeid
    have hfind : findAcceptedNeg s a.errand_id r = some n := by
      unfold findAcceptedNeg
      apply find?_eq_some_of_unique
      · exact hmem
      · simp [haeid, hr, hst]
      · intro b hb hpb
        simp only [Bool.and_eq_true, beq_iff_eq] at hpb
        exact huniq b hb (by rw [hpb.1.1, haeid]) hpb.1.2 hpb.2
    exact hcontrib a n hfind
  · intro hok
    constructor
    · have hF : ∀ i ∈ List.range 7,
          (((s.active_errands.filter (fun a =>
            a.runner_id == r && a.status == "completed")).foldl
            (dayLoopBody s r (today.subDays i)) (some 0)).map
            (fun t => (today.subDays i, t)))
          = some (today.subDays i,
              (((s.active_errands.filter (fun x =>
                  x.runner_id == r && x.status == "completed")).filter (fun x =>
                  x.end_time == some (today.subDays i))).map (fun x =>
                  (earningContribution s r x).getD 0)).sum) := by
        intro i _
        rw [foldl_opt_guard_sum (fun x => (earningContribution s r x).getD 0)
            (fun x => x.end_time == some (today.subDays i))
            (dayLoopBody s r (today.subDays i))
            (s.active_errands.filter (fun a =>
              a.runner_id == r && a.status == "completed"))
            (fun x hx v => dayLoopBody_guard s r (today.subDays i) x (hok x hx) v) 0]
        simp
      show (((List.range 7).mapM (fun i =>
          let day := today.subDays i
          let completed_errands := s.active_errands.filter (fun a =>
            a.runner_id == r && a.status == "completed")
          (completed_errands.foldl (dayLoopBody s r day) (some 0)).map
            (fun t => (day, t)))).map List.reverse) = _
      rw [mapM_eq_some_map _ (fun i =>
          (today.subDays i,
            (((s.active_errands.filter (fun x =>
                x.runner_id == r && x.status == "completed")).filter (fun x =>
                x.end_time == some (today.subDays i))).map (fun x =>
                (earningContribution s r x).getD 0)).sum))
        (List.range 7) hF]
      rfl
    · have hG : ∀ j ∈ List.range 6,
          (((s.active_errands.filter (fun a =>
            a.runner_id == r && a.status == "completed")).foldl
            (monthLoopBody s r ((⟨today.year, today.month, 1⟩ : Date).subDays (30 * (5 - j))))
            (some 0)).map
            (fun t => (((((⟨today.year, today.month, 1⟩ : Date).subDays (30 * (5 - j))).year,
              (((⟨today.year, today.month, 1⟩ : Date).subDays (30 * (5 - j))).month))), t)))
          = some ((((⟨today.year, today.month, 1⟩ : Date).subDays (30 * (5 - j))).year,
              ((⟨today.year, today.month, 1⟩ : Date).subDays (30 * (5 - j))).month),
              (((s.active_errands.filter (fun x =>
                  x.runner_id == r && x.status == "completed")).filter
                  (endsInMonth ((⟨today.year, today.month, 1⟩ : Date).subDays
                    (30 * (5 - j))))).map (fun x =>
                  (earningContribution s r x).getD 0)).sum) := by
        intro j _
        rw [foldl_opt_guard_sum (fun x => (earningContribution s r x).getD 0)
            (endsInMonth ((⟨today.year, today.month, 1⟩ : Date).subDays (30 * (5 - j))))
            (monthLoopBody s r ((⟨today.year, today.month, 1⟩ : Date).subDays (30 * (5 - j))))
            (s.active_errands.filter (fun a =>
              a.runner_id == r && a.status == "completed"))
            (fun x hx v => monthLoopBody_guard s r
              ((⟨today.year, today.month, 1⟩ : Date).subDays (30 * (5 - j))) x (hok x hx) v) 0]
        simp
      show (List.range 6).mapM (fun j =>
          let i := 5 - j
          let month_start : Date := ⟨today.year, today.month, 1⟩
          let target := month_start.subDays (30 * i)
          let completed_errands := s.active_errands.filter (fun a =>
            a.runner_id == r && a.status == "completed")
          (completed_errands.foldl (monthLoopBody s r target) (some 0)).map
            (fun t => ((target.year, target.month), t))) = _
      rw [mapM_eq_some_map _ (fun j =>
          ((((⟨today.year, today.month, 1⟩ : Date).subDays (30 * (5 - j))).year,
            ((⟨today.year, today.month, 1⟩ : Date).subDays (30 * (5 - j))).month),
            (((s.active_errands.filter (fun x =>
                x.runner_id == r && x.status == "completed")).filter
                (endsInMonth ((⟨today.year, today.month, 1⟩ : Date).subDays
                  (30 * (5 - j))))).map (fun x =>
                (earningContribution s r x).getD 0)).sum))
        (List.range 6) hG]

/-- Witness for C3: in the completed scenario the runner's contribution
for the completed errand is the accepted offer price 8, not the 13.0
estimate. -/
theorem earnings_accepted_price_witness :
    earningContribution sCompleted 2 ⟨1, 1, 2, d0, some d0, "completed"⟩ = some 8 :=
  (earnings_accepted_price sCompleted 2 d0).2.1 ⟨1, 1, 2, d0, some d0, "completed"⟩
    ⟨1, 1, 2, some 8, "accepted"⟩ 8 rfl rfl

/-- The NULL-offer-price scenario state is reachable through the modelled
endpoints starting from the fresh database. -/
theorem sNullPrice_reachable : Reachable sNullPrice := by
  have h0 := Reachable.base
  have h1 := Reachable.step (.signupA d0 formAnn) h0
  have h2 := Reachable.step (.signupA d0 formBob) h1
  have h3 := Reachable.step
    (.createGas (some 1) (some "diesel") (some "10") (some "Harare CBD")) h2
  have h4 := Reachable.step (.negotiateA (some 2) (some 1) 2 none) h3
  have h5 := Reachable.step (.acceptOffer d0 (some 1) (some 1)) h4
  exact Reachable.step (.completeErrand d0 (some 2) (some 1)) h5

set_option maxRecDepth 4000 in
/-- Counterexample to C3 as stated: in the reachable state `sNullPrice`
the runner's only negotiation for errand 1 is accepted with a NULL offer
price (`/negotiate` was called without a price field) and the errand is
completed, yet neither earnings aggregation adds the estimate for it —
both raise a TypeError (`none`) instead of producing any totals. -/
theorem null_price_earnings_counterexample :
    Reachable sNullPrice
    ∧ findAcceptedNeg sNullPrice 1 2 = some ⟨1, 1, 2, none, "accepted"⟩
    ∧ findActive sNullPrice 1 = some ⟨1, 1, 2, d0, some d0, "completed"⟩
    ∧ get_weekly_earnings sNullPrice 2 d0 = none
    ∧ get_monthly_earnings sNullPrice 2 d0 = none :=
  ⟨sNullPrice_reachable, by decide, by decide, by decide, by decide⟩



/-- A hit of `find?` in the left part survives appending on the right. -/
theorem find?_append_of_some {α : Type} (p : α → Bool) (l1 l2 : List α) (a : α)
    (h : l1.find? p = some a) : (l1 ++ l2).find? p = some a := by
  induction l1 with
  | nil => simp at h
  | cons c t ih =>
    rw [List.cons_append]
    cases hc : p c with
    | true =>
      simp only [List.find?_cons, hc] at h ⊢
      exact h
    | false =>
      simp only [List.find?_cons, hc] at h ⊢
      exact ih h

/-- Mapping with a predicate-invariant function commutes with `find?`. -/
theorem find?_map_pred {α : Type} (f : α → α) (p : α → Bool)
    (hp : ∀ x, p (f x) = p x) (l : List α) :
    (l.map f).find? p = (l.find? p).map f := by
  induction l with
  | nil => rfl
  | cons c t ih =>
    rw [List.map_cons]
    cases hc : p c with
    | true =>
      simp only [List.find?_cons, hp c, hc]
      rfl
    | false =>
      simp only [List.find?_cons, hp c, hc]
      exact ih

/-- The fresh database satisfies the invariant. -/
theorem inv_empty : Inv AppState.emptyState := by
  have hus : AppState.emptyState.users = [] := rfl
  have hes : AppState.emptyState.errands = [] := rfl
  have hrs : AppState.emptyState.ratings = [] := rfl
  refine ⟨?_, ?_, ?_, ?_, ?_⟩
  · intro u hu
    rw [hus] at hu
    simp at hu
  · rw [hus]
    exact List.Pairwise.nil
  · intro e he
    rw [hes] at he
    simp at he
  · intro r hr
    rw [hrs] at hr
    simp at hr
  · show List.Pairwise _ AppState.emptyState.ratings
    rw [hrs]
    exact List.Pairwise.nil

/-- Inserting a fresh-id user preserves the invariant. -/
theorem inv_insert_user (s : AppState) (u : User) (hid : u.id = s.next_user_id)
    (h : Inv s) :
    Inv { s with users := s.users ++ [u], next_user_id := s.next_user_id + 1 } := by
  refine ⟨?_, ?_, ?_, ?_, h.ratings_unique⟩
  · intro v hv
    rcases List.mem_append.1 hv with hv | hv
    · exact Nat.lt_succ_of_lt (h.user_ids_lt v hv)
    · rw [List.mem_singleton.1 hv, hid]
      exact Nat.lt_succ_self _
  · rw [List.pairwise_append]
    refine ⟨h.user_ids_unique, List.pairwise_singleton _ _, ?_⟩
    intro v hv w hw
    rw [List.mem_singleton.1 hw, hid]
    exact Nat.ne_of_lt (h.user_ids_lt v hv)
  · intro e he
    obtain ⟨c, hc, hcid, hct⟩ := h.client_is_client e he
    exact ⟨c, List.mem_append_left _ hc, hcid, hct⟩
  · intro r hr
    rcases h.rating_to_ok r hr with ⟨v, hv, hv2, hv3⟩ | hok
    · exact Or.inl ⟨v, List.mem_append_left _ hv, hv2, hv3⟩
    · exact Or.inr hok

/-- `signup` preserves the invariant. -/
theorem inv_signup (s : AppState) (now : Date) (form : SignupForm) (h : Inv s) :
    Inv (signup s now form).1 := by
  cases hv : signupValidationError s now form with
  | some msg =>
    simp only [signup, hv]
    exact h
  | none =>
    simp only [signup, hv]
    split
    · exact inv_insert_user s _ rfl h
    · exact inv_insert_user s _ rfl h

/-- Appending an errand owned by a client-type user preserves the invariant. -/
theorem inv_append_errand (s : AppState) (e : Errand)
    (hc : ∃ c ∈ s.users, c.id = e.client_id ∧ c.user_type = "client") (h : Inv s) :
    Inv { s with errands := s.errands ++ [e], next_errand_id := s.next_errand_id + 1 } := by
  refine ⟨h.user_ids_lt, h.user_ids_unique, ?_, h.rating_to_ok, h.ratings_unique⟩
  intro e2 he2
  rcases List.mem_append.1 he2 with he2 | he2
  · exact h.client_is_client e2 he2
  · rw [List.mem_singleton.1 he2]
    exact hc

/-- `create_gas_delivery_errand` preserves the invariant (creation requires a client-type session user). -/
theorem inv_createGas (s : AppState) (sess : Option Nat)
    (ft q da : Option String) (h : Inv s) :
    Inv (create_gas_delivery_errand s sess ft q da).1 := by
  cases sess with
  | none => exact h
  | some uid =>
    cases hfu : findUser s uid with
    | none =>
      simp only [create_gas_delivery_errand, hfu]
      exact h
    | some u =>
      by_cases htype : (u.user_type != "client") = true
      · simp only [create_gas_delivery_errand, hfu, htype, if_true]
        exact h
      · have htype2 : (u.user_type != "client") = false := by simpa using htype
        have hcl : u.user_type = "client" := by simpa using htype
        cases hp : calculate_gas_price ft q with
        | none =>
          simp only [create_gas_delivery_errand, hfu, htype2, Bool.false_eq_true,
            if_false, hp]
          exact h
        | some price =>
          simp only [create_gas_delivery_errand, hfu, htype2, Bool.false_eq_true,
            if_false, hp]
          exact inv_append_errand s _
            ⟨u, List.mem_of_find?_eq_some hfu, rfl, hcl⟩ h

/-- `negotiate` preserves the invariant (it only appends a negotiation and a notification). -/
theorem inv_negotiate (s : AppState) (sess : Option Nat) (eid : Option Nat)
    (rid : Nat) (op : Option ℚ) (h : Inv s) :
    Inv (negotiate s sess eid rid op).1 := by
  cases sess with
  | none => exact h
  | some uid =>
    cases hfu : findUser s uid with
    | none =>
      simp only [negotiate, hfu]
      exact h
    | some u =>
      cases eid with
      | none =>
        simp only [negotiate, hfu]
        exact h
      | some eid2 =>
        cases hfe : findErrand s eid2 with
        | none =>
          simp only [negotiate, hfu, hfe]
          exact h
        | some e =>
          simp only [negotiate, hfu, hfe, create_notification]
          exact ⟨h.user_ids_lt, h.user_ids_unique, h.client_is_client,
            h.rating_to_ok, h.ratings_unique⟩



/-- `accept_offer` preserves the invariant (status updates keep ids and client ids; the appended active errand cannot displace an existing first active errand). -/
theorem inv_accept (s : AppState) (now : Date) (sess : Option Nat)
    (nid : Option Nat) (h : Inv s) : Inv (accept_offer s now sess nid).1 := by
  cases sess with
  | none => exact h
  | some uid =>
    cases hfu : findUser s uid with
    | none => simp only [accept_offer, hfu]; exact h
    | some u =>
      cases nid with
      | none => simp only [accept_offer, hfu]; exact h
      | some nid2 =>
        cases hfn : findNegotiation s nid2 with
        | none => simp only [accept_offer, hfu, hfn]; exact h
        | some n =>
          cases hfe : findErrand s n.errand_id with
          | none => simp only [accept_offer, hfu, hfn, hfe]; exact h
          | some e =>
            simp only [accept_offer, hfu, hfn, hfe, create_notification]
            refine ⟨h.user_ids_lt, h.user_ids_unique, ?_, ?_, h.ratings_unique⟩
            · intro e2 he2
              obtain ⟨e0, he0, rfl⟩ := List.mem_map.1 he2
              obtain ⟨c, hc, hcid, hct⟩ := h.client_is_client e0 he0
              refine ⟨c, hc, ?_, hct⟩
              by_cases hcond : (e0.id == n.errand_id) = true
              · rw [if_pos hcond]
                exact hcid
              · rw [if_neg hcond]
                exact hcid
            · intro r hr
              rcases h.rating_to_ok r hr with h1 | ⟨a, ha, hto⟩
              · exact Or.inl h1
              · exact Or.inr ⟨a, find?_append_of_some _ _ _ _ ha, hto⟩

/-- `errand_final` preserves the invariant. -/
theorem inv_final (s : AppState) (now : Date) (sess : Option Nat)
    (eid : Option Nat) (rp : Option ℚ) (act : String) (h : Inv s) :
    Inv (errand_final s now sess eid rp act).1 := by
  cases sess with
  | none => exact h
  | some uid =>
    cases hfu : findUser s uid with
    | none => simp only [errand_final, hfu]; exact h
    | some u =>
      by_cases htype : (u.user_type != "runner") = true
      · simp only [errand_final, hfu, htype, if_true]
        exact h
      · have htype2 : (u.user_type != "runner") = false := by simpa using htype
        cases eid with
        | none =>
          simp only [errand_final, hfu, htype2, Bool.false_eq_true, if_false]
          exact h
        | some eid2 =>
          by_cases h0 : (eid2 == 0) = true
          · simp only [errand_final, hfu, htype2, Bool.false_eq_true, if_false, h0,
              if_true]
            exact h
          · have h02 : (eid2 == 0) = false := by simpa using h0
            cases hfe : findErrand s eid2 with
            | none =>
              simp only [errand_final, hfu, htype2, Bool.false_eq_true, if_false,
                h02, hfe]
              exact h
            | some e =>
              by_cases hact : (act == "accepted") = true
              · by_cases hpend : (e.status != "pending") = true
                · simp only [errand_final, hfu, htype2, Bool.false_eq_true, if_false,
                    h02, hfe, hact, if_true, hpend]
                  exact h
                · have hpend2 : (e.status != "pending") = false := by simpa using hpend
                  simp only [errand_final, hfu, htype2, Bool.false_eq_true, if_false,
                    h02, hfe, hact, if_true, hpend2, create_notification]
                  refine ⟨h.user_ids_lt, h.user_ids_unique, ?_, ?_, h.ratings_unique⟩
                  · intro e2 he2
                    obtain ⟨e0, he0, rfl⟩ := List.mem_map.1 he2
                    obtain ⟨c, hc, hcid, hct⟩ := h.client_is_client e0 he0
                    refine ⟨c, hc, ?_, hct⟩
                    by_cases hcond : (e0.id == eid2) = true
                    · rw [if_pos hcond]
                      exact hcid
                    · rw [if_neg hcond]
                      exact hcid
                  · intro r hr
                    rcases h.rating_to_ok r hr with h1 | ⟨a, ha, hto⟩
                    · exact Or.inl h1
                    · exact Or.inr ⟨a, find?_append_of_some _ _ _ _ ha, hto⟩
              · have hact2 : (act == "accepted") = false := by simpa using hact
                simp only [errand_final, hfu, htype2, Bool.false_eq_true, if_false,
                  h02, hfe, hact2]
                exact h

/-- `complete_errand` preserves the invariant: the active-errand update keeps `errand_id` and `runner_id`, so the first active errand of every errand keeps its runner. -/
theorem inv_complete (s : AppState) (now : Date) (sess : Option Nat)
    (aid : Option Nat) (h : Inv s) : Inv (complete_errand s now sess aid).1 := by
  cases sess with
  | none => exact h
  | some uid =>
    cases hfu : findUser s uid with
    | none => simp only [complete_errand, hfu]; exact h
    | some u =>
      cases aid with
      | none => simp only [complete_errand, hfu]; exact h
      | some aid2 =>
        cases hfa : findActive s aid2 with
        | none => simp only [complete_errand, hfu, hfa]; exact h
        | some a2 =>
          by_cases hbne : (a2.runner_id != u.id) = true
          · simp only [complete_errand, hfu, hfa, hbne, if_true]
            exact h
          · have hbne2 : (a2.runner_id != u.id) = false := by simpa using hbne
            cases hfe : findErrand s a2.errand_id with
            | none =>
              simp only [complete_errand, hfu, hfa, hbne2, Bool.false_eq_true,
                if_false, hfe]
              exact h
            | some e =>
              simp only [complete_errand, hfu, hfa, hbne2, Bool.false_eq_true,
                if_false, hfe, create_notification]
              refine ⟨h.user_ids_lt, h.user_ids_unique, ?_, ?_, h.ratings_unique⟩
              · intro e2 he2
                obtain ⟨e0, he0, rfl⟩ := List.mem_map.1 he2
                obtain ⟨c, hc, hcid, hct⟩ := h.client_is_client e0 he0
                refine ⟨c, hc, ?_, hct⟩
                by_cases hcond : (e0.id == a2.errand_id) = true
                · rw [if_pos hcond]
                  exact hcid
                · rw [if_neg hcond]
                  exact hcid
              · intro r hr
                rcases h.rating_to_ok r hr with h1 | ⟨a, ha, hto⟩
                · exact Or.inl h1
                · refine Or.inr ?_
                  have hfp : ∀ x : ActiveErrand,
                      ((fun b => b.errand_id == r.errand_id)
                        ((fun b => if b.id == aid2 then
                          { b with status := "completed", end_time := some now }
                          else b) x))
                      = ((fun b => b.errand_id == r.errand_id) x) := by
                    intro x
                    by_cases hc2 : (x.id == aid2) = true
                    · simp only [hc2, if_true]
                    · have hc3 : (x.id == aid2) = false := by simpa using hc2
                      simp only [hc3, Bool.false_eq_true, if_false]
                  have hmap := find?_map_pred
                    (fun b => if b.id == aid2 then
                      { b with status := "completed", end_time := some now } else b)
                    (fun b => b.errand_id == r.errand_id) hfp s.active_errands
                  have hrun : ∀ x : ActiveErrand,
                      ((fun b => if b.id == aid2 then
                        { b with status := "completed", end_time := some now }
                        else b) x).runner_id = x.runner_id := by
                    intro x
                    by_cases hc2 : (x.id == aid2) = true
                    · simp only [hc2, if_true]
                    · have hc3 : (x.id == aid2) = false := by simpa using hc2
                      simp only [hc3, Bool.false_eq_true, if_false]
                  refine ⟨(fun b => if b.id == aid2 then
                    { b with status := "completed", end_time := some now } else b) a,
                    ?_, ?_⟩
                  · show (s.active_errands.map _).find? _ = _
                    rw [hmap]
                    have ha2 : s.active_errands.find?
                        (fun b => b.errand_id == r.errand_id) = some a := ha
                    rw [ha2]
                    rfl
                  · rw [hrun]
                    exact hto



/-- The update-in-place branch of both rating endpoints preserves the invariant: it only touches stars, comment and timestamp. -/
theorem inv_update_ratings (s : AppState) (exid : Nat) (rv : Int) (c : String)
    (now : Date) (h : Inv s) :
    Inv { s with ratings := s.ratings.map (fun r => if r.id == exid then
        { r with rating := rv, comment := c, created_at := now } else r) } := by
  have hfields : ∀ r : Rating,
      ((if r.id == exid then
          ({ r with rating := rv, comment := c, created_at := now } : Rating)
        else r).errand_id = r.errand_id
      ∧ (if r.id == exid then
          ({ r with rating := rv, comment := c, created_at := now } : Rating)
        else r).from_user_id = r.from_user_id
      ∧ (if r.id == exid then
          ({ r with rating := rv, comment := c, created_at := now } : Rating)
        else r).to_user_id = r.to_user_id) := by
    intro r
    by_cases hc2 : (r.id == exid) = true
    · simp [hc2]
    · have hc3 : (r.id == exid) = false := by simpa using hc2
      simp [hc3]
  refine ⟨h.user_ids_lt, h.user_ids_unique, h.client_is_client, ?_, ?_⟩
  · intro r' hr'
    obtain ⟨r0, hr0, rfl⟩ := List.mem_map.1 hr'
    obtain ⟨hf1, hf2, hf3⟩ := hfields r0
    rcases h.rating_to_ok r0 hr0 with ⟨w, hw, hw2, hw3⟩ | ⟨a, ha, hto⟩
    · refine Or.inl ⟨w, hw, ?_, hw3⟩
      rw [hf2]
      exact hw2
    · refine Or.inr ⟨a, ?_, ?_⟩
      · rw [hf1]
        exact ha
      · rw [hf3]
        exact hto
  · show List.Pairwise _ (s.ratings.map _)
    refine List.Pairwise.map _ ?_ h.ratings_unique
    intro a b hab hkey
    obtain ⟨ha1, ha2, _⟩ := hfields a
    obtain ⟨hb1, hb2, _⟩ := hfields b
    refine hab ⟨?_, ?_⟩
    · rw [← ha1, ← hb1]
      exact hkey.1
    · rw [← ha2, ← hb2]
      exact hkey.2

/-- The shared save step of `/rate_errand` preserves the invariant; the insert branch fires only when no rating with the same (errand, rater) key exists. -/
theorem inv_rateOldSave (s : AppState) (now : Date) (eid from_uid to_uid : Nat)
    (rv : Int) (c : String) (ref : String) (h : Inv s)
    (hok : (∃ w ∈ s.users, w.id = from_uid ∧ w.user_type = "runner")
      ∨ (∃ a, firstActiveFor s eid = some a ∧ to_uid = a.runner_id)) :
    Inv (rateOldSave s now eid from_uid to_uid rv c ref).1 := by
  cases hfind : s.ratings.find?
      (fun r => r.errand_id == eid && r.from_user_id == from_uid) with
  | some ex =>
    simp only [rateOldSave, hfind]
    exact inv_update_ratings s ex.id rv c now h
  | none =>
    simp only [rateOldSave, hfind]
    refine ⟨h.user_ids_lt, h.user_ids_unique, h.client_is_client, ?_, ?_⟩
    · intro r hr
      rcases List.mem_append.1 hr with hr | hr
      · exact h.rating_to_ok r hr
      · rw [List.mem_singleton.1 hr]
        exact hok
    · show List.Pairwise _ (s.ratings ++ [_])
      rw [List.pairwise_append]
      refine ⟨h.ratings_unique, List.pairwise_singleton _ _, ?_⟩
      intro r0 hr0 b hb
      rw [List.mem_singleton.1 hb]
      intro hkey
      have hkey1 : r0.errand_id = eid := hkey.1
      have hkey2 : r0.from_user_id = from_uid := hkey.2
      have hnone := List.find?_eq_none.1 hfind r0 hr0
      apply hnone
      simp only [Bool.and_eq_true, beq_iff_eq]
      exact ⟨hkey1, hkey2⟩

/-- `rate_errand_old` preserves the invariant. -/
theorem inv_rateOld (s : AppState) (now : Date) (sess : Option Nat)
    (eid : Option Nat) (rv : Int) (c : String) (ref : String) (h : Inv s) :
    Inv (rate_errand_old s now sess eid rv c ref).1 := by
  cases sess with
  | none => exact h
  | some uid =>
    cases hfu : findUser s uid with
    | none => simp only [rate_errand_old, hfu]; exact h
    | some u =>
      cases eid with
      | none => simp only [rate_errand_old, hfu]; exact h
      | some eid2 =>
        cases hfe : findErrand s eid2 with
        | none => simp only [rate_errand_old, hfu, hfe]; exact h
        | some e =>
          by_cases hcli : (u.user_type == "client" && u.id == e.client_id) = true
          · simp only [rate_errand_old, hfu, hfe, hcli, if_true]
            cases hfa : firstActiveFor s eid2 with
            | none => exact h
            | some a =>
              exact inv_rateOldSave s now eid2 u.id a.runner_id rv (pyStrip c) ref h
                (Or.inr ⟨a, hfa, rfl⟩)
          · have hcli2 : (u.user_type == "client" && u.id == e.client_id) = false := by
              simpa using hcli
            by_cases hrun : (u.user_type == "runner") = true
            · simp only [rate_errand_old, hfu, hfe, hcli2, Bool.false_eq_true, if_false,
                hrun, if_true]
              cases hfr : s.active_errands.find?
                  (fun a => a.errand_id == eid2 && a.runner_id == u.id) with
              | none => exact h
              | some a0 =>
                exact inv_rateOldSave s now eid2 u.id e.client_id rv (pyStrip c) ref h
                  (Or.inl ⟨u, List.mem_of_find?_eq_some hfu, rfl, by simpa using hrun⟩)
            · have hrun2 : (u.user_type == "runner") = false := by simpa using hrun
              simp only [rate_errand_old, hfu, hfe, hcli2, Bool.false_eq_true, if_false,
                hrun2]
              exact h

/-- `rate_errand` (the JSON endpoint) preserves the invariant.  Its
narrower lookup (which also matches `to_user_id`) cannot miss an existing
rating of the same (errand, rater) pair: the caller must be the errand's
client, who is client-typed, so every prior rating of the pair points at
the first active errand's runner — exactly the `to_user_id` of the
lookup. -/
theorem inv_rate (s : AppState) (now : Date) (sess : Option Nat)
    (eid : Option Nat) (rv : Int) (c : String) (h : Inv s) :
    Inv (rate_errand s now sess eid rv c).1 := by
  cases sess with
  | none => exact h
  | some uid =>
    cases eid with
    | none => exact h
    | some eid2 =>
      cases hfe : findErrand s eid2 with
      | none => simp only [rate_errand, hfe]; exact h
      | some e =>
        cases hfu : findUser s uid with
        | none => simp only [rate_errand, hfe, hfu]; exact h
        | some u =>
          by_cases hne : (u.id != e.client_id) = true
          · simp only [rate_errand, hfe, hfu, hne, if_true]
            exact h
          · have hne2 : (u.id != e.client_id) = false := by simpa using hne
            have huid : u.id = e.client_id := by simpa using hne
            by_cases hst : (e.status != "completed") = true
            · simp only [rate_errand, hfe, hfu, hne2, Bool.false_eq_true, if_false,
                hst, if_true]
              exact h
            · have hst2 : (e.status != "completed") = false := by simpa using hst
              cases hfa : firstActiveFor s eid2 with
              | none =>
                simp only [rate_errand, hfe, hfu, hne2, Bool.false_eq_true, if_false,
                  hst2, hfa]
                exact h
              | some a =>
                cases hex : s.ratings.find? (fun r => r.errand_id == eid2
                    && r.from_user_id == u.id && r.to_user_id == a.runner_id) with
                | some ex =>
                  simp only [rate_errand, hfe, hfu, hne2, Bool.false_eq_true, if_false,
                    hst2, hfa, hex]
                  exact inv_update_ratings s ex.id rv c now h
                | none =>
                  simp only [rate_errand, hfe, hfu, hne2, Bool.false_eq_true, if_false,
                    hst2, hfa, hex]
                  refine ⟨h.user_ids_lt, h.user_ids_unique, h.client_is_client, ?_, ?_⟩
                  · intro r hr
                    rcases List.mem_append.1 hr with hr | hr
                    · exact h.rating_to_ok r hr
                    · rw [List.mem_singleton.1 hr]
                      exact Or.inr ⟨a, hfa, rfl⟩
                  · show List.Pairwise _ (s.ratings ++ [_])
                    rw [List.pairwise_append]
                    refine ⟨h.ratings_unique, List.pairwise_singleton _ _, ?_⟩
                    intro r0 hr0 b hb
                    rw [List.mem_singleton.1 hb]
                    intro hkey
                    have hkey1 : r0.errand_id = eid2 := hkey.1
                    have hkey2 : r0.from_user_id = u.id := hkey.2
                    have hemem : e ∈ s.errands := List.mem_of_find?_eq_some hfe
                    obtain ⟨cl, hclmem, hclid, hcltype⟩ := h.client_is_client e hemem
                    have hclu : cl = u := eq_of_mem_unique_ids (fun x => x.id) s.users
                      h.user_ids_unique hclmem (List.mem_of_find?_eq_some hfu)
                      (by show cl.id = u.id; rw [hclid, huid])
                    rcases h.rating_to_ok r0 hr0 with ⟨w, hwmem, hwid, hwtype⟩ |
                      ⟨a0, ha0, hto0⟩
                    · have hwu : w = u := eq_of_mem_unique_ids (fun x => x.id) s.users
                        h.user_ids_unique hwmem (List.mem_of_find?_eq_some hfu)
                        (by show w.id = u.id; rw [hwid, hkey2])
                      rw [hwu, ← hclu, hcltype] at hwtype
                      exact absurd hwtype (by decide)
                    · have ha0' : firstActiveFor s eid2 = some a0 := by
                        rw [← hkey1]
                        exact ha0
                      rw [hfa] at ha0'
                      have haa : a = a0 := by injection ha0'
                      have hnone := List.find?_eq_none.1 hex r0 hr0
                      apply hnone
                      simp only [Bool.and_eq_true, beq_iff_eq]
                      refine ⟨⟨hkey1, hkey2⟩, ?_⟩
                      rw [hto0, ← haa]



/-- Every modelled request preserves the invariant. -/
theorem inv_step (s : AppState) (a : Act) (h : Inv s) : Inv (applyAct s a) := by
  cases a with
  | signupA now form => exact inv_signup s now form h
  | createGas sess ft q da => exact inv_createGas s sess ft q da h
  | negotiateA sess eid rid op => exact inv_negotiate s sess eid rid op h
  | acceptOffer now sess nid => exact inv_accept s now sess nid h
  | completeErrand now sess aid => exact inv_complete s now sess aid h
  | errandFinal now sess eid rp act => exact inv_final s now sess eid rp act h
  | rateErrand now sess eid rv c => exact inv_rate s now sess eid rv c h
  | rateErrandOld now sess eid rv c ref => exact inv_rateOld s now sess eid rv c ref h

/-- The invariant holds in every reachable state. -/
theorem reachable_inv (s : AppState) (h : Reachable s) : Inv s := by
  induction h with
  | base => exact inv_empty
  | step a _ ih => exact inv_step _ a ih

/-- A list with pairwise-distinct keys has at most one element per key. -/
theorem count_le_one_of_key_pairwise {α : Type} (key : α → Nat × Nat) :
    ∀ (l : List α), l.Pairwise (fun x y => ¬(key x = key y)) →
    ∀ k, (l.filter (fun x => key x = k)).length ≤ 1 := by
  intro l
  induction l with
  | nil => intro _ k; simp
  | cons c t ih =>
    intro hp k
    obtain ⟨hc, ht⟩ := List.pairwise_cons.1 hp
    by_cases h : ((fun x => decide (key x = k)) c) = true
    · rw [List.filter_cons, if_pos h]
      have hnil : t.filter (fun x => decide (key x = k)) = [] := by
        rw [List.filter_eq_nil_iff]
        intro b hb hbk
        have h1 : key c = k := of_decide_eq_true h
        have h2 : key b = k := of_decide_eq_true hbk
        exact hc b hb (h1.trans h2.symm)
      rw [hnil]
      simp
    · rw [List.filter_cons, if_neg h]
      exact ih ht k

/-- C8: in every reachable state the rating endpoints have created at most one rating row per (errand, rater) pair — a repeated submission by the same user for the same errand updates the existing row's stars, comment and timestamp in place instead of inserting a second row. -/
theorem rating_unique_per_pair (s : AppState) (h : Reachable s) :
    ∀ eid uid, ratingCountFor s eid uid ≤ 1 := by
  intro eid uid
  have hp := (reachable_inv s h).ratings_unique
  have hcong : ∀ r ∈ s.ratings, (r.errand_id == eid && r.from_user_id == uid)
      = decide ((r.errand_id, r.from_user_id) = (eid, uid)) := by
    intro r _
    by_cases h1 : r.errand_id = eid <;> by_cases h2 : r.from_user_id = uid <;>
      simp [h1, h2]
  unfold ratingCountFor
  rw [List.filter_congr hcong]
  refine count_le_one_of_key_pairwise (fun r => (r.errand_id, r.from_user_id))
    s.ratings ?_ (eid, uid)
  refine hp.imp ?_
  intro r1 r2 hne hkeq
  refine hne ?_
  have h1 : r1.errand_id = r2.errand_id := congrArg Prod.fst hkeq
  have h2 : r1.from_user_id = r2.from_user_id := congrArg Prod.snd hkeq
  exact ⟨h1, h2⟩

/-- The double-rating scenario state is reachable. -/
theorem sRatedTwice_reachable : Reachable sRatedTwice :=
  Reachable.step (.rateErrandOld d0 (some 2) (some 1) 4 "ok" "")
    (Reachable.step (.rateErrandOld d0 (some 2) (some 1) 5 "good" "")
      sCompleted_reachable)

/-- Witness for C8: after the runner rates the completed errand twice, exactly one rating row exists and the bound holds. -/
theorem rating_unique_per_pair_witness :
    ratingCountFor sRatedTwice 1 2 ≤ 1 ∧ sRatedTwice.ratings.length = 1 :=
  ⟨rating_unique_per_pair sRatedTwice sRatedTwice_reachable 1 2, by decide⟩


end ErrandGo
